import Mathlib

/-!
# EditTokenModal: payload shaping and submission

A shallow embedding of the computational part of
`web/src/components/table/tokens/modals/EditTokenModal.jsx`: the form values
(a JavaScript object), `setExpiredTime`, `loadToken`, `generateRandomSuffix`,
`submit` (edit and create branches), the validator of `expired_time`, the two
visibility conditions of the markup and the two amount-entry change handlers.

Modelling conventions.

* A JavaScript value is a `Val`.  Numbers are the IEEE doubles that are
  integers (`Val.num n` is the double whose value is `n`), the two infinities
  (`Val.inf`) and `NaN` (`Val.nan`).  Sums and products are rounded to the
  nearest double, ties to even, and overflow to an infinity (`roundJ`); they
  are exact while the result stays below `2^53` in magnitude.  `parseInt` of a
  number reads the text the number prints as: the number itself below `10^21`,
  the digit before the point of the exponent form from `10^21` on.
* An object is an association list from keys to values (`Obj`), read with
  `Obj.get` (an absent key reads `undefined`), written with `Obj.set` and
  shrunk with `Obj.del` (the `delete` operator and rest-destructuring).
* Effects (`setLoading`, `showError`, `API.put`, ...) are recorded, in program
  order, as a list of `Event`s.  The translation function `t` belongs to the
  display layer; an event records the argument given to `t`.  The quotients
  `Math.floor(s / 86400)` and `Math.ceil(time / 1000)` are taken exactly, which
  is what the doubles give on stored seconds and on time values of `Date`
  (at most `8.64 * 10^15` in magnitude).  A `TypeError`
  thrown by a method call on a value that lacks the method (`trim`, `join`,
  `split`) ends the run with the event `typeError`.
* The collaborators that are not part of the component (`Date.parse`,
  `timestamp2string`, `renderUnitWithQuota`, `parseFloat`, the HTTP responses
  and `Math.random`) are parameters.  Every request is answered: a rejected
  promise of the transport is not modelled.
-/

namespace EditTokenModal

/-! ## Values -/

/-- A JavaScript value as far as the form needs it. -/
inductive Val where
  | undefined
  | null
  | bool (b : Bool)
  | num (n : Int)
  | inf (neg : Bool)
  | nan
  | str (s : String)
  | arr (xs : List String)
  deriving DecidableEq, Repr, Inhabited

/-- A JavaScript number that is an integer, `Infinity` or `-Infinity` (`neg`),
or `NaN`. -/
inductive JNum where
  | fin (n : Int)
  | inf (neg : Bool)
  | nan
  deriving DecidableEq, Repr

/-- The number as a value. -/
def ofJ : JNum → Val
  | .fin n => .num n
  | .inf b => .inf b
  | .nan => .nan

/-! ### Doubles -/

/-- The number of binary digits of `a`, with `fuel` halvings at most. -/
def bitLengthAux : Nat → Nat → Nat
  | 0, _ => 0
  | fuel + 1, a => if a = 0 then 0 else bitLengthAux fuel (a / 2) + 1

/-- The number of binary digits of `a` (of a number below `2^1100`). -/
def bitLength (a : Nat) : Nat := bitLengthAux 1100 a

/-- The natural number with a significand of 53 binary digits that is nearest
to `a`, ties to the even significand: the rounding of IEEE double arithmetic
on a non-negative integer. -/
def roundNat (a : Nat) : Nat :=
  if bitLength a ≤ 53 then a
  else
    (if 2 ^ (bitLength a - 53 - 1) < a % 2 ^ (bitLength a - 53)
        ∨ (a % 2 ^ (bitLength a - 53) = 2 ^ (bitLength a - 53 - 1)
          ∧ a / 2 ^ (bitLength a - 53) % 2 = 1)
      then a / 2 ^ (bitLength a - 53) + 1 else a / 2 ^ (bitLength a - 53))
      * 2 ^ (bitLength a - 53)

/-- The bound `2^1024` of the finite doubles. -/
def doubleLimit : Nat := 2 ^ 256 * 2 ^ 256 * 2 ^ 256 * 2 ^ 256

/-- The double nearest to the integer `n`; an infinity from `2^1024` on. -/
def roundJ (n : Int) : JNum :=
  if doubleLimit ≤ roundNat n.natAbs then .inf (decide (n < 0))
  else .fin (if n < 0 then -(roundNat n.natAbs : Int) else (roundNat n.natAbs : Int))

/-- The number of decimal digits of `a`, with `fuel` divisions at most. -/
def decLengthAux : Nat → Nat → Nat
  | 0, _ => 0
  | fuel + 1, a => if a = 0 then 0 else decLengthAux fuel (a / 10) + 1

/-- The number of decimal digits of `a` (of a number below `10^400`). -/
def decLength (a : Nat) : Nat := decLengthAux 400 a

/-- The first decimal digit of `a`, with `fuel` divisions at most. -/
def leadDigitAux : Nat → Nat → Nat
  | 0, a => a
  | fuel + 1, a => if a < 10 then a else leadDigitAux fuel (a / 10)

/-- The first decimal digit of `a` (of a number below `10^400`). -/
def leadDigit (a : Nat) : Nat := leadDigitAux 400 a

/-- The decimal with `k` significant digits that reads back as the double `a`,
if there is one; of two, the one nearer to `a`, the even one on a tie. -/
def shortestAt (a k : Nat) : Option Nat :=
  if roundNat (a / 10 ^ (decLength a - k) * 10 ^ (decLength a - k)) = a then
    if roundNat (a / 10 ^ (decLength a - k) * 10 ^ (decLength a - k)
        + 10 ^ (decLength a - k)) = a then
      if a - a / 10 ^ (decLength a - k) * 10 ^ (decLength a - k)
          < a / 10 ^ (decLength a - k) * 10 ^ (decLength a - k) + 10 ^ (decLength a - k) - a
        ∨ (a - a / 10 ^ (decLength a - k) * 10 ^ (decLength a - k)
            = a / 10 ^ (decLength a - k) * 10 ^ (decLength a - k)
              + 10 ^ (decLength a - k) - a
          ∧ a / 10 ^ (decLength a - k) % 2 = 0)
      then some (a / 10 ^ (decLength a - k) * 10 ^ (decLength a - k))
      else some (a / 10 ^ (decLength a - k) * 10 ^ (decLength a - k) + 10 ^ (decLength a - k))
    else some (a / 10 ^ (decLength a - k) * 10 ^ (decLength a - k))
  else if roundNat (a / 10 ^ (decLength a - k) * 10 ^ (decLength a - k)
      + 10 ^ (decLength a - k)) = a then
    some (a / 10 ^ (decLength a - k) * 10 ^ (decLength a - k) + 10 ^ (decLength a - k))
  else none

/-- The decimal that `Number::toString` prints for the double `a`: the one
with the fewest significant digits, 17 at most, that reads back as `a`. -/
def shortest (a : Nat) : Nat :=
  ((List.range 17).findSome? fun k => shortestAt a (k + 1)).getD a

/-- The text `Number::toString` prints for the non-negative double `a`: the
decimal numeral below `10^21`, the exponent form from there on. -/
def printNat (a : Nat) : String :=
  if a < 10 ^ 21 then toString (shortest a)
  else
    match ((toString (shortest a)).data.reverse.dropWhile fun c => c = '0').reverse with
    | [] => "0"
    | [d] => String.mk [d] ++ "e+" ++ toString (decLength (shortest a) - 1)
    | d :: ds => String.mk (d :: '.' :: ds) ++ "e+" ++ toString (decLength (shortest a) - 1)

/-- JavaScript truthiness (`!!v`). -/
def truthy : Val → Bool
  | .undefined => false
  | .null => false
  | .bool b => b
  | .num n => n != 0
  | .inf _ => true
  | .nan => false
  | .str s => s != ""
  | .arr _ => true

/-- The operator `a || b`. -/
def orElse (a b : Val) : Val := if truthy a then a else b

/-- The conversion `ToString` on a value (an array prints its elements joined by commas). -/
def toStr : Val → String
  | .undefined => "undefined"
  | .null => "null"
  | .bool b => if b then "true" else "false"
  | .num n => if n < 0 then "-" ++ printNat n.natAbs else printNat n.natAbs
  | .inf b => if b then "-Infinity" else "Infinity"
  | .nan => "NaN"
  | .str s => s
  | .arr xs => String.intercalate "," xs

/-- White space and line terminators of ECMAScript, as skipped by `parseInt`
and removed by `String.prototype.trim`. -/
def isJsSpace (c : Char) : Bool :=
  c.toNat ∈ [0x09, 0x0A, 0x0B, 0x0C, 0x0D, 0x20, 0xA0, 0x1680, 0x2028, 0x2029, 0x202F,
    0x205F, 0x3000, 0xFEFF] || (0x2000 ≤ c.toNat && c.toNat ≤ 0x200A)

/-- The method `String.prototype.trim`. -/
def jsTrim (s : String) : String :=
  ⟨((s.data.dropWhile isJsSpace).reverse.dropWhile isJsSpace).reverse⟩

/-- The value of a digit in the given radix, if it is one. -/
def digitVal (radix : Nat) (c : Char) : Option Nat :=
  let d : Option Nat :=
    if 48 ≤ c.toNat ∧ c.toNat ≤ 57 then some (c.toNat - 48)
    else if 97 ≤ c.toNat ∧ c.toNat ≤ 122 then some (c.toNat - 87)
    else if 65 ≤ c.toNat ∧ c.toNat ≤ 90 then some (c.toNat - 55)
    else none
  d.filter (fun n => n < radix)

/-- The function `parseInt` on a string: leading white space, a sign, a `0x` prefix when no
radix was given, then the longest run of digits, read as a double; `NaN` when
there is none. -/
def parseIntStr (radix10 : Bool) (s : String) : JNum :=
  let cs := s.data.dropWhile isJsSpace
  let neg := cs.head? = some '-'
  let cs := if cs.head? = some '-' ∨ cs.head? = some '+' then cs.tail else cs
  let hex := !radix10 && (cs.take 2 = ['0', 'x'] || cs.take 2 = ['0', 'X'])
  let radix := if hex then 16 else 10
  let cs := if hex then cs.drop 2 else cs
  let ds := (cs.takeWhile (fun c => (digitVal radix c).isSome)).filterMap (digitVal radix)
  if ds = [] then .nan
  else
    let m : Int := (ds.foldl (fun acc d => acc * radix + d) 0 : Nat)
    roundJ (if neg then -m else m)

/-- The function `parseInt`, with or without the radix 10: the argument is converted to a
string and parsed.  A number below `10^21` in magnitude prints as its decimal
numeral, which reads back as the number; from `10^21` on it prints in exponent
form and `parseInt` reads the digit before the point. -/
def parseIntWith (radix10 : Bool) : Val → JNum
  | .num n =>
    if n.natAbs < 10 ^ 21 then .fin n
    else .fin (if n < 0 then -(leadDigit (shortest n.natAbs) : Int)
      else (leadDigit (shortest n.natAbs) : Int))
  | .str s => parseIntStr radix10 s
  | .arr xs => parseIntStr radix10 (String.intercalate "," xs)
  | _ => .nan

/-- The call `parseInt(v)`. -/
def parseInt (v : Val) : JNum := parseIntWith false v

/-- The call `parseInt(v, 10)`. -/
def parseInt10 (v : Val) : JNum := parseIntWith true v

/-- The idiom `parseInt(v || 0)`. -/
def numArg (v : Val) : JNum := parseInt (orElse v (.num 0))

/-- Number addition in doubles; `NaN` is absorbing. -/
def jadd : JNum → JNum → JNum
  | .fin x, .fin y => roundJ (x + y)
  | .fin _, .inf b => .inf b
  | .inf a, .fin _ => .inf a
  | .inf a, .inf b => if a = b then .inf a else .nan
  | _, _ => .nan

/-- Number multiplication in doubles; `NaN` is absorbing. -/
def jmul : JNum → JNum → JNum
  | .fin x, .fin y => roundJ (x * y)
  | .fin x, .inf b => if x = 0 then .nan else .inf (xor (decide (x < 0)) b)
  | .inf a, .fin y => if y = 0 then .nan else .inf (xor a (decide (y < 0)))
  | .inf a, .inf b => .inf (xor a b)
  | _, _ => .nan

/-- The test `x > 0`; false on `NaN`. -/
def jpos : JNum → Bool
  | .fin n => 0 < n
  | .inf b => !b
  | .nan => false

/-- The idiom `x || 0` on a number. -/
def jorZero : JNum → JNum
  | .fin n => .fin n
  | .inf b => .inf b
  | .nan => .fin 0

/-- The test `!x || x <= 0` on a number. -/
def notOrLe0 : JNum → Bool
  | .fin n => n ≤ 0
  | .inf b => b
  | .nan => true

/-- The numeric reading of a value that is a number (`NaN` otherwise). -/
def asNum : Val → JNum
  | .num n => .fin n
  | .inf b => .inf b
  | _ => .nan

/-- The test `typeof v === "number"`. -/
def isNumber : Val → Bool
  | .num _ => true
  | .inf _ => true
  | .nan => true
  | _ => false

/-- The expression `Math.ceil(time / 1000)` on an integer. -/
def ceilDiv1000 (time : Int) : Int := -((-time) / 1000)

/-! ## Objects -/

/-- A JavaScript object with primitive fields. -/
abbrev Obj := List (String × Val)

namespace Obj

/-- The value stored under a key, if the object has the key. -/
def find : Obj → String → Option Val
  | [], _ => none
  | (k', v) :: o, k => if k' = k then some v else find o k

/-- Property read; an absent key reads `undefined`. -/
def get (o : Obj) (k : String) : Val := (o.find k).getD .undefined

/-- Whether the object has the key. -/
def has (o : Obj) (k : String) : Bool := (o.find k).isSome

/-- Property write: in place when the key exists, appended otherwise. -/
def set : Obj → String → Val → Obj
  | [], k, v => [(k, v)]
  | (k', v') :: o, k, v => if k' = k then (k, v) :: o else (k', v') :: set o k v

/-- Property deletion. -/
def del : Obj → String → Obj
  | [], _ => []
  | (k', v) :: o, k => if k' = k then del o k else (k', v) :: del o k

/-- Object spread `{...a, ...b}`: every property of `b` is written into a copy
of `a`.  An object has each key once; on a list that repeats a key the first
entry counts, as in `find`. -/
def spread (a : Obj) : Obj → Obj
  | [] => a
  | (k, v) :: b => set (spread a b) k v

end Obj

/-! ## Collaborators and effects -/

/-- The helpers the component imports or inherits from the platform. -/
structure Helpers where
  /-- The function `Date.parse` on the string form of its argument: a time value in
  milliseconds (an integer of magnitude at most `8.64 * 10^15`), or `NaN`. -/
  dateParse : String → Option Int
  /-- The helper `timestamp2string`. -/
  timestamp2string : Val → Val
  /-- The helper `renderUnitWithQuota`, on a decimal amount: a number, or `NaN`. -/
  renderUnitWithQuota : ℚ → Option ℚ
  /-- The function `parseFloat`: a decimal amount, or `NaN`. -/
  parseFloat : Val → Option ℚ

/-- The envelope of a response: `res.data.success`, `res.data.message` and
`res.data.data`. -/
structure Resp where
  success : Bool
  message : String
  data : Obj

/-- What the closure of `submit` captures. -/
structure Env where
  /-- The property `props.editingToken.id`. -/
  editingId : Val
  /-- Whether `formApiRef.current` is set. -/
  formMounted : Bool

/-- The flag `isEdit`: `props.editingToken.id !== undefined`. -/
def Env.isEdit (env : Env) : Bool := env.editingId != .undefined

/-- An observable effect of the component: the calls `setLoading(b)`,
`showError(msg)`, `showSuccess(msg)`, `props.refresh()`, `props.handleClose()`,
`API.put(url, body)`, `API.post(url, body)`, `formApiRef.current.setValues(v)`,
and an uncaught `TypeError`. -/
inductive Event where
  | setLoading (b : Bool)
  | showError (msg : String)
  | showSuccess (msg : String)
  | refresh
  | handleClose
  | put (url : String) (body : Obj)
  | post (url : String) (body : Obj)
  | setValues (v : Obj)
  | typeError
  deriving DecidableEq, Repr

/-- The bodies of the `PUT` and `POST` requests of a run, in order. -/
def requests : List Event → List Obj
  | [] => []
  | .put _ b :: es => b :: requests es
  | .post _ b :: es => b :: requests es
  | _ :: es => requests es

/-- The bodies of the `POST` requests of a run, in order. -/
def posts : List Event → List Obj
  | [] => []
  | .post _ b :: es => b :: posts es
  | _ :: es => posts es

/-- The form values after a run that started from `form`: the argument of the
last `setValues`, if there was one. -/
def formAfter (form : Obj) : List Event → Obj
  | [] => form
  | .setValues v :: es => formAfter v es
  | _ :: es => formAfter form es

/-- The function `getInitValues`. -/
def getInitValues : Obj :=
  [("name", .str ""), ("remain_quota", .num 500000), ("expired_time", .num (-1)),
   ("unlimited_quota", .bool false), ("model_limits_enabled", .bool false),
   ("model_limits", .arr []), ("allow_ips", .str ""), ("group", .str ""),
   ("tokenCount", .num 1), ("start_on_first_use", .bool false), ("duration_days", .num 0),
   ("duration_hours", .num 0), ("daily_quota_limit", .num 0), ("first_used_time", .num 0),
   ("extend_days", .num 0), ("extend_hours", .num 0)]

/-! ## loadToken -/

/-- Line 161: an expiration other than the sentinel becomes a date-time string. -/
def loadExpiry (H : Helpers) (v : Obj) : Obj :=
  if v.get "expired_time" ≠ .num (-1)
  then v.set "expired_time" (H.timestamp2string (v.get "expired_time")) else v

/-- Line 162: the comma-joined model limits become a list; `none` when
`v.model_limits.split` is not a function. -/
def loadLimits (v : Obj) : Option Obj :=
  if truthy (v.get "model_limits") then
    match v.get "model_limits" with
    | .str s => some (v.set "model_limits" (.arr (s.splitOn ",")))
    | _ => none
  else some (v.set "model_limits" (.arr []))

/-- Lines 163-166: a positive stored duration is split into days and hours. -/
def loadDuration (v : Obj) : Obj :=
  match v.get "duration_seconds" with
  | .num ds =>
    if 0 < ds then
      (v.set "duration_days" (.num (ds / 86400))).set "duration_hours"
        (.num (ds % 86400 / 3600))
    else v
  | .inf false => (v.set "duration_days" (.inf false)).set "duration_hours" .nan
  | _ => v

/-- Line 167: a daily limit that is not a number becomes 0. -/
def loadDaily (v : Obj) : Obj :=
  if !isNumber (v.get "daily_quota_limit") then v.set "daily_quota_limit" (.num 0) else v

/-- The value `v` that `loadToken` builds from the fetched record `data`
(lines 160-167); `none` when `v.model_limits.split` is not a function. -/
def loadValues (H : Helpers) (data : Obj) : Option Obj :=
  (loadLimits (loadExpiry H (Obj.spread getInitValues data))).map
    fun v => loadDaily (loadDuration v)

/-- The function `loadToken`, given the response to `GET /api/token/{id}`. -/
def loadToken (H : Helpers) (env : Env) (res : Resp) : List Event :=
  .setLoading true ::
    (if !res.success then [.showError res.message, .setLoading false]
     else
      match loadValues H res.data with
      | none => [.typeError]
      | some v => (if env.formMounted then [.setValues v] else []) ++ [.setLoading false])

/-! ## generateRandomSuffix -/

/-- The alphabet `chars` of `generateRandomSuffix`. -/
def chars : String := "ABCDEFGHIJKLMNOPQRSTUVWXYZabcdefghijklmnopqrstuvwxyz0123456789"

/-- The method `String.prototype.charAt`: the empty string outside the string. -/
def charAt (s : String) (i : Int) : String :=
  if i < 0 then "" else
    match s.data.get? i.toNat with
    | some c => String.singleton c
    | none => ""

/-- The function `generateRandomSuffix`; `rand` lists the values `Math.random()`
returns and `pos` counts the calls made so far. -/
def generateRandomSuffix (rand : Nat → ℚ) (pos : Nat) : String × Nat :=
  ((List.range 6).foldl
      (fun r i => r ++ charAt chars ⌊rand (pos + i) * (chars.length : ℚ)⌋) "",
    pos + 6)

/-! ## submit -/

/-- How the construction of a payload ends. -/
inductive Built (α : Type) where
  | ok (a : α)
  | parseFail
  | typeError
  deriving Repr

/-- Whether the construction reached the request. -/
def Built.isOk {α : Type} : Built α → Bool
  | .ok _ => true
  | _ => false

/-- The seconds of the extension fields: `extendSeconds` (lines 199, 253). -/
def extendSeconds (l : Obj) : JNum :=
  jmul (jadd (jmul (numArg (l.get "extend_days")) (.fin 24)) (numArg (l.get "extend_hours")))
    (.fin 3600)

/-- The seconds of the duration fields (lines 203, 256). -/
def durationSeconds (l : Obj) : JNum :=
  jmul (jadd (jmul (numArg (l.get "duration_days")) (.fin 24)) (numArg (l.get "duration_hours")))
    (.fin 3600)

/-- Lines 197-206 (edit) and 252-259 (create): the numeric fields are parsed,
the extension and duration fields are turned into seconds and deleted. -/
def normalize (l : Obj) : Obj × JNum :=
  let l := l.set "remain_quota" (ofJ (numArg (l.get "remain_quota")))
  let ext := extendSeconds l
  let l := (l.del "extend_days").del "extend_hours"
  let l := l.set "duration_seconds" (ofJ (durationSeconds l))
  let l := (l.del "duration_days").del "duration_hours"
  let l := l.set "daily_quota_limit" (ofJ (numArg (l.get "daily_quota_limit")))
  (l, ext)

/-- The test `!!local.expired_time && local.expired_time !== -1`. -/
def hasValidExpired (l : Obj) : Bool :=
  truthy (l.get "expired_time") && l.get "expired_time" != .num (-1)

/-- Lines 207-215: in edit mode an unused first-use token without a valid
expiration gets the sentinel. -/
def deferEdit (l : Obj) : Obj :=
  if truthy (l.get "start_on_first_use") then
    if notOrLe0 (numArg (l.get "first_used_time")) then
      if !hasValidExpired l then l.set "expired_time" (.num (-1)) else l
    else l
  else l

/-- Lines 260-265: in create mode a first-use token without a valid expiration
gets the sentinel. -/
def deferCreate (l : Obj) : Obj :=
  if truthy (l.get "start_on_first_use") then
    if !hasValidExpired l then l.set "expired_time" (.num (-1)) else l
  else l

/-- Lines 216-224 and 266-274: an expiration other than the sentinel is parsed
and rounded up to seconds; `none` when `Date.parse` gives `NaN`. -/
def parseExpiry (H : Helpers) (l : Obj) : Option Obj :=
  if l.get "expired_time" ≠ .num (-1) then
    match H.dateParse (toStr (l.get "expired_time")) with
    | none => none
    | some time => some (l.set "expired_time" (.num (ceilDiv1000 time)))
  else some l

/-- The assignment `local.expired_time = (parseInt(local.expired_time || 0) || 0)
+ extendSeconds`. -/
def extendExpiry (l : Obj) (ext : JNum) : Obj :=
  l.set "expired_time" (ofJ (jadd (jorZero (numArg (l.get "expired_time"))) ext))

/-- The assignment `local.duration_seconds = (local.duration_seconds || 0) +
extendSeconds`; the left operand is the number stored by `normalize`. -/
def extendDuration (l : Obj) (ext : JNum) : Obj :=
  l.set "duration_seconds" (ofJ (jadd (asNum (orElse (l.get "duration_seconds") (.num 0))) ext))

/-- Lines 226-233: the extension in edit mode. -/
def extendEdit (l : Obj) (ext : JNum) : Obj :=
  if jpos ext then
    if truthy (l.get "start_on_first_use") && notOrLe0 (numArg (l.get "first_used_time")) then
      extendDuration l ext
    else if l.get "expired_time" ≠ .num (-1) then extendExpiry l ext
    else l
  else l

/-- Lines 275-281: the extension in create mode. -/
def extendCreate (l : Obj) (ext : JNum) : Obj :=
  if jpos ext then
    if truthy (l.get "start_on_first_use") then extendDuration l ext
    else if l.get "expired_time" ≠ .num (-1) then extendExpiry l ext
    else l
  else l

/-- Lines 234-235 and 282-283: the model limits are joined by commas and the
flag derived; `none` when `join` is not a function of the value. -/
def joinLimits (l : Obj) : Option Obj :=
  match orElse (l.get "model_limits") (.arr []) with
  | .arr xs =>
    let l := l.set "model_limits" (.str (String.intercalate "," xs))
    some (l.set "model_limits_enabled" (.bool (orElse (l.get "model_limits") (.str "") != .str "")))
  | _ => none

/-- The object `local` of the edit branch when it reaches `API.put` (lines
196-235). -/
def editLocal (H : Helpers) (values : Obj) : Built Obj :=
  let n := normalize (values.del "tokenCount")
  match parseExpiry H (deferEdit n.1) with
  | none => .parseFail
  | some l =>
    match joinLimits (extendEdit l n.2) with
    | none => .typeError
    | some l => .ok l

/-- The body of the `PUT` request: `{ ...local, id: parseInt(props.editingToken.id) }`. -/
def editBody (env : Env) (l : Obj) : Obj := l.set "id" (ofJ (parseInt env.editingId))

/-- The name of the `i`-th created token (lines 250-251) and the number of
calls to `Math.random` so far; `none` when `values.name.trim` is not a
function. -/
def createName (rand : Nat → ℚ) (values : Obj) (i pos : Nat) : Option (String × Nat) :=
  match values.get "name" with
  | .str nm =>
    let base := if jsTrim nm = "" then "default" else jsTrim nm
    if i = 0 ∧ jsTrim nm ≠ "" then some (base, pos)
    else some (base ++ "-" ++ (generateRandomSuffix rand pos).1, (generateRandomSuffix rand pos).2)
  | _ => none

/-- The object `local` of iteration `i` of the create loop when it reaches
`API.post` (lines 249-283), with the count of calls to `Math.random`. -/
def createLocal (H : Helpers) (rand : Nat → ℚ) (values : Obj) (i pos : Nat) :
    Built (Obj × Nat) :=
  match createName rand values i pos with
  | none => .typeError
  | some np =>
    let n := normalize ((values.del "tokenCount").set "name" (.str np.1))
    match parseExpiry H (deferCreate n.1) with
    | none => .parseFail
    | some l =>
      match joinLimits (extendCreate l n.2) with
      | none => .typeError
      | some l => .ok (l, np.2)

/-- The state of the create loop when it is left. -/
structure LoopResult where
  events : List Event
  successCount : Nat
  threw : Bool
  deriving Repr

/-- The loop `for (let i = 0; i < count; i++)` of lines 248-291, with `todo`
iterations left; `resp i` is the response to the request of iteration `i`.
The counter is a natural number, which the double of the source is through
the first `2^53` iterations. -/
def createLoop (H : Helpers) (resp : Nat → Resp) (rand : Nat → ℚ) (values : Obj) :
    Nat → Nat → Nat → Nat → LoopResult
  | 0, _, _, successCount => ⟨[], successCount, false⟩
  | todo + 1, i, pos, successCount =>
    match createLocal H rand values i pos with
    | .typeError => ⟨[.typeError], successCount, true⟩
    | .parseFail => ⟨[.showError "过期时间格式错误！", .setLoading false], successCount, false⟩
    | .ok (l, pos) =>
      if (resp i).success then
        let rest := createLoop H resp rand values todo (i + 1) pos (successCount + 1)
        ⟨.post "/api/token/" l :: rest.events, rest.successCount, rest.threw⟩
      else
        ⟨[.post "/api/token/" l, .showError (resp i).message], successCount, false⟩

/-- The count `parseInt(values.tokenCount, 10) || 1` of line 246, as the bound
of the loop.  `-Infinity` allows no iteration and is read as 0; `Infinity`
(a numeral of more than 308 digits) sets no bound and is read as `2^1024`,
more iterations than a run can show. -/
def tokenCount (values : Obj) : Int :=
  match parseInt10 (values.get "tokenCount") with
  | .fin 0 => 1
  | .fin n => n
  | .inf true => 0
  | .inf false => doubleLimit
  | .nan => 1

/-- Lines 298-299: `setLoading(false)` and the reset of the form values. -/
def finish (env : Env) : List Event :=
  .setLoading false :: (if env.formMounted then [.setValues getInitValues] else [])

/-- The edit branch of `submit` (lines 195-244) followed by lines 298-299. -/
def submitEdit (H : Helpers) (env : Env) (res : Resp) (values : Obj) : List Event :=
  match editLocal H values with
  | .parseFail => [.showError "过期时间格式错误！", .setLoading false]
  | .typeError => [.typeError]
  | .ok l =>
    .put "/api/token/" (editBody env l) ::
      ((if res.success then [.showSuccess "令牌更新成功！", .refresh, .handleClose]
        else [.showError res.message]) ++ finish env)

/-- The create branch of `submit` (lines 246-296), as the state it leaves. -/
def submitCreateLoop (H : Helpers) (resp : Nat → Resp) (rand : Nat → ℚ) (values : Obj) :
    LoopResult :=
  createLoop H resp rand values (tokenCount values).toNat 0 0 0

/-- The create branch of `submit` followed by lines 298-299. -/
def submitCreate (H : Helpers) (env : Env) (resp : Nat → Resp) (rand : Nat → ℚ)
    (values : Obj) : List Event :=
  let r := submitCreateLoop H resp rand values
  if r.threw then r.events
  else
    r.events ++
      (if 0 < r.successCount then
        [.showSuccess "令牌创建成功，请在列表页面点击复制获取令牌！", .refresh, .handleClose]
       else []) ++ finish env

/-- The function `submit`: `resp i` is the response to the `i`-th request and
`rand` lists the values of `Math.random`. -/
def submit (H : Helpers) (env : Env) (resp : Nat → Resp) (rand : Nat → ℚ) (values : Obj) :
    List Event :=
  .setLoading true ::
    (if env.isEdit then submitEdit H env (resp 0) values
     else submitCreate H env resp rand values)

/-! ## Amount entry -/

/-- The call `parseInt(q)` on a number that prints in decimal notation: the
fraction is dropped. -/
def parseIntQ : Option ℚ → JNum
  | some x => .fin (if 0 ≤ x then ⌊x⌋ else ⌈x⌉)
  | none => .nan

/-- The component state the change handlers touch. -/
structure AmountState where
  amountValue : ℚ
  dailyAmountValue : ℚ
  form : Obj

/-- The handler `onChange` of the amount input of `remain_quota` (lines 532-537). -/
def onAmountChange (H : Helpers) (env : Env) (st : AmountState) (v : Val) : AmountState :=
  let val := (H.parseFloat v).getD 0
  let q := H.renderUnitWithQuota val
  ⟨val, st.dailyAmountValue,
    if env.formMounted then st.form.set "remain_quota" (ofJ (jorZero (parseIntQ q))) else st.form⟩

/-- The handler `onChange` of the amount input of `daily_quota_limit` (lines
452-457). -/
def onDailyAmountChange (H : Helpers) (env : Env) (st : AmountState) (v : Val) : AmountState :=
  let val := (H.parseFloat v).getD 0
  let q := H.renderUnitWithQuota val
  ⟨st.amountValue, val,
    if env.formMounted then st.form.set "daily_quota_limit" (ofJ (jorZero (parseIntQ q)))
    else st.form⟩

/-! ## Drafts that pass validation, and sample inputs -/

/-- Whether a value is an array, or is falsy and so replaced by `[]` in
`(v || []).join(",")`. -/
def joinable (v : Val) : Bool :=
  match orElse v (.arr []) with
  | .arr _ => true
  | _ => false

/-- Whether a value is a string. -/
def isStr : Val → Bool
  | .str _ => true
  | _ => false

/-- Whether a request body has none of the transient keys of the form. -/
def transientFree (b : Obj) : Bool :=
  !b.has "tokenCount" && !b.has "extend_days" && !b.has "extend_hours"
    && !b.has "duration_days" && !b.has "duration_hours"

/-- The expiration that the parse check of lines 216 and 266 meets: the one of
the draft, or the sentinel that the first-use rule of lines 207-215 (edit) and
260-265 (create) puts in its place. -/
def expiryAtCheck (env : Env) (values : Obj) : Val :=
  if env.isEdit then (deferEdit values).get "expired_time"
  else (deferCreate values).get "expired_time"

/-- A draft that passes validation, so that every payload `submit` builds from
it reaches its request: the expiration the parse check meets is the sentinel or
a date that parses, the model limits are a list (or empty), and in create mode
the name is a string and at least one token is asked for. -/
def passesValidation (H : Helpers) (env : Env) (values : Obj) : Bool :=
  (expiryAtCheck env values == .num (-1)
      || (H.dateParse (toStr (expiryAtCheck env values))).isSome)
    && joinable (values.get "model_limits")
    && (env.isEdit || (isStr (values.get "name") && decide (1 ≤ tokenCount values)))

/-- Sample helpers: two dates parse, a quota unit is 1/500000 of a currency
unit, an amount parses when it is an integer number. -/
def exHelpers : Helpers :=
  ⟨fun s => if s = "2030-01-01 00:00:00" then some 1893456000000
    else if s = "1969-12-31 23:59:59" then some (-1000) else none,
   fun v => v, fun x => some (x * 500000),
   fun v => match v with
    | .num n => some (n : ℚ)
    | _ => none⟩

/-- Sample closure of the edit form of token 7. -/
def exEditEnv : Env := ⟨.num 7, true⟩

/-- Sample closure of the create form. -/
def exCreateEnv : Env := ⟨.undefined, true⟩

/-- Sample responses: every request fails with the message `bad`. -/
def exFail : Nat → Resp := fun _ => ⟨false, "bad", []⟩

/-- Sample responses: every request succeeds. -/
def exOk : Nat → Resp := fun _ => ⟨true, "", []⟩

/-- Sample responses: the request at position 1 is the first to fail. -/
def exFailSecond : Nat → Resp := fun i => ⟨decide (i < 1), "bad", []⟩

/-- Sample random source. -/
def exRand : Nat → ℚ := fun n => ((n % 20 : Nat) : ℚ) / 20

/-- Sample draft: the defaults with the name `tok`. -/
def exDraft : Obj := getInitValues.set "name" (.str "tok")

/-- Sample draft of an unused first-use token whose hidden expiration field
has no value. -/
def exDeferredDraft : Obj :=
  (exDraft.set "start_on_first_use" (.bool true)).del "expired_time"

/-- Sample record whose duration is 0 days and 24 hours. -/
def exDayRecord : Obj :=
  [("model_limits", .str ""), ("duration_seconds", .num ((0 * 24 + 24) * 3600))]

/-- Sample draft with a duration of `10^15` days and 1 hour. -/
def exBigDurationDraft : Obj :=
  (exDraft.set "duration_days" (.num 1000000000000000)).set "duration_hours" (.num 1)

/-- Sample draft of an unused first-use token with a duration of `10^15` days
and 1 hour, extended by 1 day. -/
def exBigFirstUseDraft : Obj :=
  ((exBigDurationDraft.set "start_on_first_use" (.bool true)).set "extend_days" (.num 1))

/-- Sample draft that expires in 2030 and asks for `10^15` more days and 1
more hour. -/
def exBigExtendDraft : Obj :=
  ((exDraft.set "expired_time" (.str "2030-01-01 00:00:00")).set "extend_days"
    (.num 1000000000000000)).set "extend_hours" (.num 1)

/-- Sample state of the amount inputs over the default form values. -/
def exAmountState : AmountState := ⟨1, 0, getInitValues⟩

/-! ## Expiration presets, validation and visibility -/

/-- The function `setExpiredTime` (lines 98-109) on the form values; `nowMs` is
`now.getTime()` and `setValue` writes one field of the form. -/
def setExpiredTime (H : Helpers) (env : Env) (nowMs : Int) (form : Obj)
    (month day hour minute : Int) : Obj :=
  let ts := nowMs / 1000
  let seconds := month * 30 * 24 * 60 * 60 + day * 24 * 60 * 60 + hour * 60 * 60 + minute * 60
  if !env.formMounted then form
  else if seconds ≠ 0 then form.set "expired_time" (H.timestamp2string (.num (ts + seconds)))
  else form.set "expired_time" (.num (-1))

/-- The validator of the field `expired_time` (lines 390-396): `none` when the
promise resolves, the message when it rejects; `nowMs` is `Date.now()`. -/
def expiredTimeValidator (H : Helpers) (nowMs : Int) (value : Val) : Option String :=
  if value = .num (-1) ∨ truthy value = false then none
  else
    match H.dateParse (toStr value) with
    | none => some "过期时间格式错误！"
    | some time => if time ≤ nowMs then some "过期时间不能早于当前时间！" else none

/-- The flag `hideExpiration` of line 338, as the condition the markup tests. -/
def hideExpiration (values : Obj) : Bool :=
  truthy (values.get "start_on_first_use")
    && (!truthy (values.get "first_used_time") || values.get "first_used_time" == .num 0)

/-- The condition of line 439 under which the duration fields are rendered. -/
def durationFieldsShown (values : Obj) : Bool :=
  truthy (values.get "start_on_first_use") || jpos (numArg (values.get "daily_quota_limit"))

/-- In the words of the specification: a first-use timestamp that is unset or
0. -/
def unsetOrZero : Val → Bool
  | .undefined => true
  | .null => true
  | .num n => n == 0
  | _ => false

/-- In the words of the specification: a daily quota limit greater than 0. -/
def positive : Val → Bool
  | .num n => decide (0 < n)
  | _ => false

/-- A field of the wire schema that holds a number, or is unset. -/
def numOrUnset : Val → Bool
  | .undefined => true
  | .null => true
  | .num _ => true
  | _ => false

/-- The outcome of a construction with its result changed by `f`. -/
def Built.map {α β : Type} (f : α → β) : Built α → Built β
  | .ok a => .ok (f a)
  | .parseFail => .parseFail
  | .typeError => .typeError

/-- Sample draft whose name has white space around it. -/
def exPaddedDraft : Obj := getInitValues.set "name" (.str " tok ")

/-! ## The model on sample inputs -/

set_option maxRecDepth 4000 in
theorem parseInt_samples :
    parseInt (.str "  -12px") = .fin (-12) ∧ parseInt (.str "0x1f") = .fin 31 ∧
      parseInt10 (.str "0x1f") = .fin 0 ∧ parseInt (.str "abc") = .nan ∧
      parseInt (.arr ["7", "8"]) = .fin 7 ∧
      parseInt (.str "9007199254740993") = .fin 9007199254740992 ∧
      parseInt (.num 1000000000000000000000) = .fin 1 ∧
      parseInt (.num 99999999999999991611392) = .fin 1 ∧
      parseInt (.num (-70000000000000001610612736)) = .fin (-7) := by
  refine ⟨by decide, by decide, by decide, by decide, by decide, by decide, by decide,
    by decide, by decide⟩

set_option maxRecDepth 4000 in
theorem toStr_samples :
    toStr (.num 18446744073709551616) = "18446744073709552000" ∧
      toStr (.num 99999999999999991611392) = "1e+23" ∧
      toStr (.num (-15)) = "-15" ∧
      parseIntStr false (toStr (.num 99999999999999991611392))
        = parseInt (.num 99999999999999991611392) := by
  refine ⟨by decide, by decide, by decide, by decide⟩

theorem double_samples :
    roundJ 86400000000000003600 = .fin 86400000000000000000 ∧
      roundJ 9007199254740993 = .fin 9007199254740992 ∧
      roundJ 9007199254740995 = .fin 9007199254740996 ∧
      jmul (jadd (jmul (.fin 1000000000000000) (.fin 24)) (.fin 1)) (.fin 3600)
        = .fin 86400000000000000000 ∧
      jadd (.fin 86400000000000000000) (.fin 86400) = .fin 86400000000000081920 ∧
      shortest 18446744073709551616 = 18446744073709552000 ∧
      shortest 99999999999999991611392 = 100000000000000000000000 := by
  decide

theorem jsTrim_sample : jsTrim "  a b \n" = "a b" := by decide

theorem ceilDiv1000_samples :
    ceilDiv1000 1001 = 2 ∧ ceilDiv1000 (-1000) = -1 ∧ ceilDiv1000 (-999) = 0 := by
  decide

/-! ## Objects: reading after writing -/

namespace Obj

theorem find_set (o : Obj) (k k' : String) (v : Val) :
    (set o k v).find k' = if k' = k then some v else o.find k' := by
  induction o with
  | nil =>
    by_cases h : k = k'
    · simp [set, find, h]
    · have : ¬ k' = k := fun e => h e.symm
      simp [set, find, h, this]
  | cons p o ih =>
    obtain ⟨a, b⟩ := p
    by_cases ha : a = k
    · subst ha
      by_cases h : a = k'
      · simp [set, find, h]
      · have : ¬ k' = a := fun e => h e.symm
        simp [set, find, h, this]
    · by_cases h : a = k'
      · subst h
        simp [set, find, ha]
      · simp [set, find, ha, h, ih]

theorem find_del (o : Obj) (k k' : String) :
    (del o k).find k' = if k' = k then none else o.find k' := by
  induction o with
  | nil => simp [del, find]
  | cons p o ih =>
    obtain ⟨a, b⟩ := p
    by_cases ha : a = k
    · subst ha
      by_cases h : a = k'
      · subst h
        simp [del, ih]
      · simp [del, find, h, ih]
    · by_cases h : a = k'
      · subst h
        simp [del, find, ha]
      · simp [del, find, ha, h, ih]

@[simp] theorem get_set (o : Obj) (k k' : String) (v : Val) :
    (set o k v).get k' = if k' = k then v else o.get k' := by
  unfold get
  rw [find_set]
  split <;> rfl

@[simp] theorem get_del (o : Obj) (k k' : String) :
    (del o k).get k' = if k' = k then .undefined else o.get k' := by
  unfold get
  rw [find_del]
  split <;> rfl

@[simp] theorem has_set (o : Obj) (k k' : String) (v : Val) :
    (set o k v).has k' = if k' = k then true else o.has k' := by
  unfold has
  rw [find_set]
  split <;> rfl

@[simp] theorem has_del (o : Obj) (k k' : String) :
    (del o k).has k' = if k' = k then false else o.has k' := by
  unfold has
  rw [find_del]
  split <;> rfl

end Obj

/-! ## The stages of `submit` -/

theorem bitLengthAux_le (fuel a k : Nat) (h : a < 2 ^ k) : bitLengthAux fuel a ≤ k := by
  induction fuel generalizing a k with
  | zero => simp [bitLengthAux]
  | succ fuel ih =>
    unfold bitLengthAux
    split_ifs with h0
    · exact Nat.zero_le _
    · cases k with
      | zero => omega
      | succ k =>
        have : a / 2 < 2 ^ k := by
          rw [Nat.div_lt_iff_lt_mul (by decide)]
          rw [Nat.pow_succ] at h
          exact h
        have := ih (a / 2) k this
        omega

theorem roundNat_small (a : Nat) (h : a < 2 ^ 53) : roundNat a = a := by
  unfold roundNat
  rw [if_pos (show bitLength a ≤ 53 from bitLengthAux_le 1100 a 53 h)]

theorem roundJ_small (n : Int) (h : n.natAbs < 2 ^ 53) : roundJ n = .fin n := by
  have hlim : ¬ doubleLimit ≤ n.natAbs := by
    have : (2 : Nat) ^ 53 ≤ doubleLimit := by decide
    omega
  unfold roundJ
  rw [roundNat_small _ h, if_neg hlim]
  congr 1
  split_ifs <;> omega

theorem jadd_small (x y : Int) (h : (x + y).natAbs < 2 ^ 53) :
    jadd (.fin x) (.fin y) = .fin (x + y) := by
  simp only [jadd]
  exact roundJ_small _ h

theorem jmul_small (x y : Int) (h : (x * y).natAbs < 2 ^ 53) :
    jmul (.fin x) (.fin y) = .fin (x * y) := by
  simp only [jmul]
  exact roundJ_small _ h

theorem numArg_num (n : Int) (h : n.natAbs < 10 ^ 21) : numArg (.num n) = .fin n := by
  by_cases h0 : n = 0
  · subst h0; rfl
  · have h' : ¬ 1000000000000000000000 ≤ n.natAbs := by
      have : (10 : Nat) ^ 21 = 1000000000000000000000 := by norm_num
      omega
    simp [numArg, orElse, truthy, h0, parseInt, parseIntWith, h']

theorem leadDigitAux_pos (fuel a : Nat) (h : 1 ≤ a) : 1 ≤ leadDigitAux fuel a := by
  induction fuel generalizing a with
  | zero => simpa [leadDigitAux] using h
  | succ fuel ih =>
    unfold leadDigitAux
    split_ifs with h10
    · exact h
    · exact ih _ (by omega)

theorem shortestAt_pos (a k c : Nat) (h : 1 ≤ a) (hc : shortestAt a k = some c) : 1 ≤ c := by
  have hunit : 1 ≤ 10 ^ (decLength a - k) := Nat.one_le_two_pow.trans
    (Nat.pow_le_pow_left (by decide) _)
  have hlo : ∀ lo, roundNat lo = a → 1 ≤ lo := by
    intro lo hr
    by_contra hneg
    have : lo = 0 := by omega
    subst this
    have : roundNat 0 = 0 := by decide
    omega
  unfold shortestAt at hc
  split_ifs at hc with h1 h2 h3 h4
  all_goals
    simp only [Option.some.injEq] at hc
    subst hc
    first | exact hlo _ h1 | omega

theorem shortest_pos (a : Nat) (h : 1 ≤ a) : 1 ≤ shortest a := by
  unfold shortest
  cases hf : (List.range 17).findSome? (fun k => shortestAt a (k + 1)) with
  | none => simpa using h
  | some c =>
    obtain ⟨k, -, hk⟩ := List.exists_of_findSome?_eq_some hf
    simpa using shortestAt_pos a (k + 1) c h hk

theorem parseInt_num_pos (n : Int) : jpos (numArg (.num n)) = decide (0 < n) := by
  by_cases h0 : n = 0
  · subst h0; rfl
  · by_cases hs : n.natAbs < 10 ^ 21
    · rw [numArg_num n hs]
      rfl
    · have hl := leadDigitAux_pos 400 (shortest n.natAbs)
        (shortest_pos _ (by omega))
      simp only [numArg, orElse, truthy, h0, parseInt, parseIntWith, hs, jpos, leadDigit,
        bne_iff_ne, ne_eq, not_false_eq_true, if_true, if_false, decide_eq_true_eq]
      by_cases hn : n < 0
      · simp only [hn, if_true]
        have : ¬ (0 : Int) < n := by omega
        simp only [this, decide_False, decide_eq_false_iff_not, not_lt]
        omega
      · simp only [hn, if_false]
        have : (0 : Int) < n := by omega
        simp only [this, decide_True, decide_eq_true_eq]
        omega

theorem get_of_find_eq {l l' : Obj} {k : String} (h : l'.find k = l.find k) :
    l'.get k = l.get k := by
  simp [Obj.get, h]

theorem has_of_find_eq {l l' : Obj} {k : String} (h : l'.find k = l.find k) :
    l'.has k = l.has k := by
  simp [Obj.has, h]

theorem normalize_snd (l : Obj) : (normalize l).2 = extendSeconds l := by
  simp [normalize, extendSeconds]

theorem normalize_get_duration (l : Obj) :
    (normalize l).1.get "duration_seconds" = ofJ (durationSeconds l) := by
  simp [normalize, durationSeconds]

theorem normalize_find (l : Obj) (k : String) (h1 : k ≠ "remain_quota")
    (h2 : k ≠ "extend_days") (h3 : k ≠ "extend_hours") (h4 : k ≠ "duration_seconds")
    (h5 : k ≠ "duration_days") (h6 : k ≠ "duration_hours") (h7 : k ≠ "daily_quota_limit") :
    (normalize l).1.find k = l.find k := by
  simp [normalize, Obj.find_set, Obj.find_del, h1, h2, h3, h4, h5, h6, h7]

theorem deferEdit_find (l : Obj) (k : String) (hk : k ≠ "expired_time") :
    (deferEdit l).find k = l.find k := by
  unfold deferEdit
  split_ifs <;> simp [Obj.find_set, hk]

theorem deferCreate_find (l : Obj) (k : String) (hk : k ≠ "expired_time") :
    (deferCreate l).find k = l.find k := by
  unfold deferCreate
  split_ifs <;> simp [Obj.find_set, hk]

theorem parseExpiry_find {H : Helpers} {l l' : Obj} (h : parseExpiry H l = some l')
    (k : String) (hk : k ≠ "expired_time") : l'.find k = l.find k := by
  unfold parseExpiry at h
  split_ifs at h with he
  · split at h
    · cases h
    · cases h
      simp [Obj.find_set, hk]
  · cases h
    rfl

theorem extendEdit_find (l : Obj) (ext : JNum) (k : String) (hk : k ≠ "expired_time")
    (hk2 : k ≠ "duration_seconds") : (extendEdit l ext).find k = l.find k := by
  unfold extendEdit extendDuration extendExpiry
  split_ifs <;> simp [Obj.find_set, hk, hk2]

theorem extendCreate_find (l : Obj) (ext : JNum) (k : String) (hk : k ≠ "expired_time")
    (hk2 : k ≠ "duration_seconds") : (extendCreate l ext).find k = l.find k := by
  unfold extendCreate extendDuration extendExpiry
  split_ifs <;> simp [Obj.find_set, hk, hk2]

theorem joinLimits_find {l l' : Obj} (h : joinLimits l = some l') (k : String)
    (hk : k ≠ "model_limits") (hk2 : k ≠ "model_limits_enabled") : l'.find k = l.find k := by
  unfold joinLimits at h
  split at h
  · cases h
    simp [Obj.find_set, hk, hk2]
  · cases h

theorem editLocal_ok_iff (H : Helpers) (values l : Obj) :
    editLocal H values = .ok l ↔
      ∃ l1, parseExpiry H (deferEdit (normalize (values.del "tokenCount")).1) = some l1 ∧
        joinLimits (extendEdit l1 (extendSeconds (values.del "tokenCount"))) = some l := by
  unfold editLocal
  rw [← normalize_snd]
  constructor
  · intro h
    simp only at h
    split at h
    · cases h
    · rename_i l1 h1
      split at h
      · cases h
      · rename_i l2 h2
        cases h
        exact ⟨l1, h1, h2⟩
  · rintro ⟨l1, h1, h2⟩
    simp only [h1, h2]

theorem createLocal_ok_iff (H : Helpers) (rand : Nat → ℚ) (values l : Obj) (i pos pos' : Nat) :
    createLocal H rand values i pos = .ok (l, pos') ↔
      ∃ name l1, createName rand values i pos = some (name, pos') ∧
        parseExpiry H (deferCreate
          (normalize ((values.del "tokenCount").set "name" (.str name))).1) = some l1 ∧
        joinLimits (extendCreate l1
          (extendSeconds ((values.del "tokenCount").set "name" (.str name)))) = some l := by
  unfold createLocal
  constructor
  · intro h
    split at h
    · cases h
    · rename_i np hn
      simp only at h
      split at h
      · cases h
      · rename_i l1 h1
        split at h
        · cases h
        · rename_i l2 h2
          obtain ⟨name, p⟩ := np
          simp only [Built.ok.injEq, Prod.mk.injEq] at h
          obtain ⟨rfl, rfl⟩ := h
          exact ⟨name, l1, hn, h1, by rw [← normalize_snd]; exact h2⟩
  · rintro ⟨name, l1, hn, h1, h2⟩
    rw [← normalize_snd] at h2
    simp only [hn, h1, h2]

theorem parseExpiry_isSome (H : Helpers) (l : Obj)
    (h : l.get "expired_time" = .num (-1) ∨
      (H.dateParse (toStr (l.get "expired_time"))).isSome = true) :
    ∃ l', parseExpiry H l = some l' := by
  unfold parseExpiry
  by_cases he : l.get "expired_time" = .num (-1)
  · exact ⟨l, by simp [he]⟩
  · rcases h with h | h
    · exact absurd h he
    · obtain ⟨p, hp⟩ := Option.isSome_iff_exists.mp h
      exact ⟨l.set "expired_time" (.num (ceilDiv1000 p)), by simp [he, hp]⟩

theorem deferEdit_expired (l : Obj) :
    (deferEdit l).get "expired_time" = l.get "expired_time" ∨
      (deferEdit l).get "expired_time" = .num (-1) := by
  unfold deferEdit
  split_ifs <;> simp

theorem deferCreate_expired (l : Obj) :
    (deferCreate l).get "expired_time" = l.get "expired_time" ∨
      (deferCreate l).get "expired_time" = .num (-1) := by
  unfold deferCreate
  split_ifs <;> simp

theorem joinLimits_isSome (l : Obj) (h : joinable (l.get "model_limits") = true) :
    ∃ l', joinLimits l = some l' := by
  unfold joinable at h
  unfold joinLimits
  split at h
  · rename_i xs hx
    simp only [hx]
    exact ⟨_, rfl⟩
  · cases h

theorem prepared_find (l : Obj) (name : Val) (k : String) (h0 : k ≠ "name")
    (h1 : k ≠ "remain_quota") (h2 : k ≠ "extend_days") (h3 : k ≠ "extend_hours")
    (h4 : k ≠ "duration_seconds") (h5 : k ≠ "duration_days") (h6 : k ≠ "duration_hours")
    (h7 : k ≠ "daily_quota_limit") (h8 : k ≠ "tokenCount") :
    (normalize ((l.del "tokenCount").set "name" name)).1.find k = l.find k ∧
      (normalize (l.del "tokenCount")).1.find k = l.find k := by
  constructor
  · rw [normalize_find _ _ h1 h2 h3 h4 h5 h6 h7]
    simp [Obj.find_set, Obj.find_del, h0, h8]
  · rw [normalize_find _ _ h1 h2 h3 h4 h5 h6 h7]
    simp [Obj.find_del, h8]

theorem deferEdit_get_congr (l l' : Obj)
    (h1 : l.get "start_on_first_use" = l'.get "start_on_first_use")
    (h2 : l.get "first_used_time" = l'.get "first_used_time")
    (h3 : l.get "expired_time" = l'.get "expired_time") :
    (deferEdit l).get "expired_time" = (deferEdit l').get "expired_time" := by
  unfold deferEdit hasValidExpired
  rw [h1, h2, h3]
  split_ifs <;> simp [h3]

theorem deferCreate_get_congr (l l' : Obj)
    (h1 : l.get "start_on_first_use" = l'.get "start_on_first_use")
    (h3 : l.get "expired_time" = l'.get "expired_time") :
    (deferCreate l).get "expired_time" = (deferCreate l').get "expired_time" := by
  unfold deferCreate hasValidExpired
  rw [h1, h3]
  split_ifs <;> simp [h3]

theorem editLocal_of_valid (H : Helpers) (env : Env) (values : Obj) (hedit : env.isEdit = true)
    (hv : passesValidation H env values = true) : ∃ l, editLocal H values = .ok l := by
  simp only [passesValidation, expiryAtCheck, hedit, if_true, Bool.and_eq_true,
    Bool.or_eq_true, beq_iff_eq] at hv
  obtain ⟨⟨he, hj⟩, -⟩ := hv
  have hf := fun k h0 h1 h2 h3 h4 h5 h6 h7 h8 =>
    get_of_find_eq (prepared_find values (.str "") k h0 h1 h2 h3 h4 h5 h6 h7 h8).2
  have hfm := (prepared_find values (.str "") "model_limits" (by decide) (by decide)
    (by decide) (by decide) (by decide) (by decide) (by decide) (by decide) (by decide)).2
  obtain ⟨l1, h1⟩ : ∃ l1, parseExpiry H (deferEdit (normalize (values.del "tokenCount")).1)
      = some l1 := by
    apply parseExpiry_isSome
    rw [deferEdit_get_congr _ values
      (hf _ (by decide) (by decide) (by decide) (by decide) (by decide) (by decide)
        (by decide) (by decide) (by decide))
      (hf _ (by decide) (by decide) (by decide) (by decide) (by decide) (by decide)
        (by decide) (by decide) (by decide))
      (hf _ (by decide) (by decide) (by decide) (by decide) (by decide) (by decide)
        (by decide) (by decide) (by decide))]
    exact he
  obtain ⟨l2, h2⟩ : ∃ l2,
      joinLimits (extendEdit l1 (extendSeconds (values.del "tokenCount"))) = some l2 := by
    apply joinLimits_isSome
    rw [get_of_find_eq (extendEdit_find _ _ _ (by decide) (by decide)),
      get_of_find_eq (parseExpiry_find h1 _ (by decide)),
      get_of_find_eq (deferEdit_find _ _ (by decide)), get_of_find_eq hfm]
    exact hj
  exact ⟨l2, (editLocal_ok_iff H values l2).mpr ⟨l1, h1, h2⟩⟩

theorem createName_isSome (rand : Nat → ℚ) (values : Obj) (i pos : Nat)
    (h : isStr (values.get "name") = true) :
    ∃ name pos', createName rand values i pos = some (name, pos') := by
  unfold createName
  unfold isStr at h
  split at h
  · rename_i s hs
    simp only [hs]
    split_ifs <;> exact ⟨_, _, rfl⟩
  · cases h

theorem createLocal_of_valid (H : Helpers) (env : Env) (rand : Nat → ℚ) (values : Obj)
    (hc : env.isEdit = false) (hv : passesValidation H env values = true) (i pos : Nat) :
    ∃ l pos', createLocal H rand values i pos = .ok (l, pos') := by
  simp only [passesValidation, expiryAtCheck, Bool.and_eq_true, Bool.or_eq_true, beq_iff_eq,
    hc, Bool.false_eq_true, false_or, if_false] at hv
  obtain ⟨⟨he, hj⟩, hn, -⟩ := hv
  obtain ⟨name, pos', hname⟩ := createName_isSome rand values i pos hn
  have hf := fun k h0 h1 h2 h3 h4 h5 h6 h7 h8 =>
    get_of_find_eq (prepared_find values (.str name) k h0 h1 h2 h3 h4 h5 h6 h7 h8).1
  have hfm := (prepared_find values (.str name) "model_limits" (by decide) (by decide)
    (by decide) (by decide) (by decide) (by decide) (by decide) (by decide) (by decide)).1
  obtain ⟨l1, h1⟩ : ∃ l1, parseExpiry H (deferCreate
      (normalize ((values.del "tokenCount").set "name" (.str name))).1) = some l1 := by
    apply parseExpiry_isSome
    rw [deferCreate_get_congr _ values
      (hf _ (by decide) (by decide) (by decide) (by decide) (by decide) (by decide)
        (by decide) (by decide) (by decide))
      (hf _ (by decide) (by decide) (by decide) (by decide) (by decide) (by decide)
        (by decide) (by decide) (by decide))]
    exact he
  obtain ⟨l2, h2⟩ : ∃ l2, joinLimits (extendCreate l1
      (extendSeconds ((values.del "tokenCount").set "name" (.str name)))) = some l2 := by
    apply joinLimits_isSome
    rw [get_of_find_eq (extendCreate_find _ _ _ (by decide) (by decide)),
      get_of_find_eq (parseExpiry_find h1 _ (by decide)),
      get_of_find_eq (deferCreate_find _ _ (by decide)), get_of_find_eq hfm]
    exact hj
  exact ⟨l2, pos', (createLocal_ok_iff H rand values l2 i pos pos').mpr ⟨name, l1, hname, h1, h2⟩⟩

theorem isOk_iff {α : Type} (b : Built α) : b.isOk = true ↔ ∃ a, b = .ok a := by
  cases b <;> simp [Built.isOk]

theorem requests_append (a b : List Event) : requests (a ++ b) = requests a ++ requests b := by
  induction a with
  | nil => rfl
  | cons e a ih => cases e <;> simp [requests, ih]

theorem requests_finish (env : Env) : requests (finish env) = [] := by
  unfold finish
  split_ifs <;> rfl

theorem parseExpiry_eq_none (H : Helpers) (l : Obj) (hs : l.get "expired_time" ≠ .num (-1))
    (hp : H.dateParse (toStr (l.get "expired_time")) = none) : parseExpiry H l = none := by
  simp [parseExpiry, hs, hp]

theorem deferEdit_eq_self (l : Obj)
    (h : truthy (l.get "start_on_first_use") = true →
      hasValidExpired l = true ∨ notOrLe0 (numArg (l.get "first_used_time")) = false) :
    deferEdit l = l := by
  unfold deferEdit
  split_ifs with h1 h2 h3
  · rcases h h1 with h | h
    · simp [h] at h3
    · simp [h] at h2
  all_goals rfl

theorem deferCreate_eq_self (l : Obj)
    (h : truthy (l.get "start_on_first_use") = true → hasValidExpired l = true) :
    deferCreate l = l := by
  unfold deferCreate
  split_ifs with h1 h3
  · simp [h h1] at h3
  all_goals rfl

theorem createLoop_requests_nil (H : Helpers) (resp : Nat → Resp) (rand : Nat → ℚ)
    (values : Obj) (hno : ∀ i pos, (createLocal H rand values i pos).isOk = false)
    (todo i pos sc : Nat) :
    requests (createLoop H resp rand values todo i pos sc).events = [] := by
  cases todo with
  | zero => rfl
  | succ todo =>
    have h := hno i pos
    unfold createLoop
    split
    · rfl
    · rfl
    · rename_i hok
      rw [hok] at h
      cases h

/-- C1 (amended): in edit mode, for every draft that passes the checks of
`submit`, when the update request reports `success=false` the message is
surfaced, exactly one request was sent, the form is not closed, and the form
values are then set to the defaults of `getInitValues`. -/
theorem C1_edit_failure_resets_form (H : Helpers) (env : Env) (resp : Nat → Resp)
    (rand : Nat → ℚ) (values : Obj) (hedit : env.isEdit = true)
    (hm : env.formMounted = true) (hv : (editLocal H values).isOk = true)
    (hf : (resp 0).success = false) :
    Event.showError (resp 0).message ∈ submit H env resp rand values ∧
      Event.handleClose ∉ submit H env resp rand values ∧
      (requests (submit H env resp rand values)).length = 1 ∧
      formAfter values (submit H env resp rand values) = getInitValues := by
  obtain ⟨l, hl⟩ := (isOk_iff _).mp hv
  have hs : submit H env resp rand values =
      [.setLoading true, .put "/api/token/" (editBody env l), .showError (resp 0).message,
        .setLoading false, .setValues getInitValues] := by
    simp [submit, submitEdit, finish, hedit, hm, hl, hf]
  rw [hs]
  refine ⟨by simp, by simp, rfl, rfl⟩

/-- C1, witness: the sample draft under a failing update. -/
theorem C1_edit_failure_resets_form_witness :
    (editLocal exHelpers exDraft).isOk = true ∧
      Event.showError (exFail 0).message ∈ submit exHelpers exEditEnv exFail exRand exDraft ∧
      Event.handleClose ∉ submit exHelpers exEditEnv exFail exRand exDraft ∧
      (requests (submit exHelpers exEditEnv exFail exRand exDraft)).length = 1 ∧
      formAfter exDraft (submit exHelpers exEditEnv exFail exRand exDraft) = getInitValues :=
  ⟨by decide, C1_edit_failure_resets_form exHelpers exEditEnv exFail exRand exDraft
    (by decide) (by decide) (by decide) (by decide)⟩

/-- C1, counterexample: the sample draft passes validation, the update fails
with the message `bad`, the message is surfaced, and the form values after
`submit` are no longer the draft. -/
theorem C1_counterexample :
    passesValidation exHelpers exEditEnv exDraft = true ∧
      (exFail 0).success = false ∧
      Event.showError "bad" ∈ submit exHelpers exEditEnv exFail exRand exDraft ∧
      formAfter exDraft (submit exHelpers exEditEnv exFail exRand exDraft) ≠ exDraft := by
  decide

theorem hasValidExpired_of (l : Obj) (ht : truthy (l.get "expired_time") = true)
    (hs : l.get "expired_time" ≠ .num (-1)) : hasValidExpired l = true := by
  simp [hasValidExpired, ht, hs]

theorem editLocal_parseFail (H : Helpers) (values : Obj)
    (hs : values.get "expired_time" ≠ .num (-1))
    (hp : H.dateParse (toStr (values.get "expired_time")) = none)
    (hd : truthy (values.get "start_on_first_use") = true →
      truthy (values.get "expired_time") = true ∨
        notOrLe0 (numArg (values.get "first_used_time")) = false) :
    editLocal H values = .parseFail := by
  have hf := fun k h0 h1 h2 h3 h4 h5 h6 h7 h8 =>
    get_of_find_eq (prepared_find values (.str "") k h0 h1 h2 h3 h4 h5 h6 h7 h8).2
  have he := hf "expired_time" (by decide) (by decide) (by decide) (by decide) (by decide)
    (by decide) (by decide) (by decide) (by decide)
  have hsf := hf "start_on_first_use" (by decide) (by decide) (by decide) (by decide)
    (by decide) (by decide) (by decide) (by decide) (by decide)
  have hfu := hf "first_used_time" (by decide) (by decide) (by decide) (by decide)
    (by decide) (by decide) (by decide) (by decide) (by decide)
  have hself : deferEdit (normalize (values.del "tokenCount")).1
      = (normalize (values.del "tokenCount")).1 := by
    apply deferEdit_eq_self
    rw [hsf, hfu]
    intro h
    rcases hd h with h | h
    · exact Or.inl (hasValidExpired_of _ (by rw [he]; exact h) (by rw [he]; exact hs))
    · exact Or.inr h
  have hnone : parseExpiry H (deferEdit (normalize (values.del "tokenCount")).1) = none := by
    rw [hself]
    exact parseExpiry_eq_none H _ (by rw [he]; exact hs) (by rw [he]; exact hp)
  unfold editLocal
  simp only [hnone]

theorem createLocal_not_ok (H : Helpers) (rand : Nat → ℚ) (values : Obj)
    (hs : values.get "expired_time" ≠ .num (-1))
    (hp : H.dateParse (toStr (values.get "expired_time")) = none)
    (hd : truthy (values.get "start_on_first_use") = true →
      truthy (values.get "expired_time") = true) (i pos : Nat) :
    (createLocal H rand values i pos).isOk = false := by
  cases hok : (createLocal H rand values i pos).isOk with
  | false => rfl
  | true =>
    exfalso
    obtain ⟨⟨l, pos'⟩, hl⟩ := (isOk_iff _).mp hok
    obtain ⟨name, l1, -, h1, -⟩ := (createLocal_ok_iff H rand values l i pos pos').mp hl
    have hf := fun k h0 h1 h2 h3 h4 h5 h6 h7 h8 =>
      get_of_find_eq (prepared_find values (.str name) k h0 h1 h2 h3 h4 h5 h6 h7 h8).1
    have he := hf "expired_time" (by decide) (by decide) (by decide) (by decide) (by decide)
      (by decide) (by decide) (by decide) (by decide)
    have hsf := hf "start_on_first_use" (by decide) (by decide) (by decide) (by decide)
      (by decide) (by decide) (by decide) (by decide) (by decide)
    rw [deferCreate_eq_self _ (by
      rw [hsf]
      intro h
      exact hasValidExpired_of _ (by rw [he]; exact hd h) (by rw [he]; exact hs)),
      parseExpiry_eq_none H _ (by rw [he]; exact hs) (by rw [he]; exact hp)] at h1
    cases h1

theorem requests_submitCreate (H : Helpers) (env : Env) (resp : Nat → Resp)
    (rand : Nat → ℚ) (values : Obj) :
    requests (submitCreate H env resp rand values)
      = requests (submitCreateLoop H resp rand values).events := by
  unfold submitCreate
  simp only
  split_ifs
  · rfl
  · rw [requests_append, requests_append, requests_finish]
    simp [requests]
  · rw [requests_append, requests_append, requests_finish]
    simp [requests]

theorem requests_submit_create (H : Helpers) (env : Env) (resp : Nat → Resp)
    (rand : Nat → ℚ) (values : Obj) (hc : env.isEdit = false) :
    requests (submit H env resp rand values)
      = requests (submitCreateLoop H resp rand values).events := by
  simp [submit, hc, requests, requests_submitCreate]

/-- C2 (amended): for every draft whose `expired_time` is not the sentinel `-1`
and does not parse as a date, and which the first-use rule does not turn into
the sentinel (that is, unless `start_on_first_use` is set, `expired_time` is
empty and, in edit mode, no first use is recorded), `submit` sends no `PUT` or
`POST` request, in create mode for every `tokenCount` and in edit mode; in edit
mode the form values are left as they were. -/
theorem C2_unparseable_expiry_sends_nothing (H : Helpers) (env : Env) (resp : Nat → Resp)
    (rand : Nat → ℚ) (values : Obj)
    (hs : values.get "expired_time" ≠ .num (-1))
    (hp : H.dateParse (toStr (values.get "expired_time")) = none)
    (hd : truthy (values.get "start_on_first_use") = true →
      truthy (values.get "expired_time") = true ∨
        (env.isEdit = true ∧ notOrLe0 (numArg (values.get "first_used_time")) = false)) :
    requests (submit H env resp rand values) = [] ∧
      (env.isEdit = true → formAfter values (submit H env resp rand values) = values) := by
  cases hedit : env.isEdit with
  | true =>
    have hfail := editLocal_parseFail H values hs hp (fun h => by
      rcases hd h with h | h
      · exact Or.inl h
      · exact Or.inr h.2)
    have hsub : submit H env resp rand values =
        [.setLoading true, .showError "过期时间格式错误！", .setLoading false] := by
      simp [submit, submitEdit, hedit, hfail]
    rw [hsub]
    exact ⟨rfl, fun _ => rfl⟩
  | false =>
    refine ⟨?_, fun h => by cases h⟩
    have hno := createLocal_not_ok H rand values hs hp (fun h => by
      rcases hd h with h | h
      · exact h
      · rw [hedit] at h
        cases h.1)
    have hnil := createLoop_requests_nil H resp rand values hno (tokenCount values).toNat 0 0 0
    rw [requests_submit_create H env resp rand values hedit]
    exact hnil

/-- C2, witness: the sample draft with an expiration that does not parse, in
edit mode. -/
theorem C2_unparseable_expiry_sends_nothing_witness :
    requests (submit exHelpers exEditEnv exOk exRand (exDraft.set "expired_time" (.str "soon")))
        = [] ∧
      (exEditEnv.isEdit = true →
        formAfter (exDraft.set "expired_time" (.str "soon"))
          (submit exHelpers exEditEnv exOk exRand (exDraft.set "expired_time" (.str "soon")))
          = exDraft.set "expired_time" (.str "soon")) :=
  C2_unparseable_expiry_sends_nothing exHelpers exEditEnv exOk exRand
    (exDraft.set "expired_time" (.str "soon")) (by decide) (by decide) (by decide)

/-- C2, counterexample: the expiration of the sample first-use draft is not
the sentinel and does not parse, and `submit` in edit mode sends a `PUT`
request. -/
theorem C2_counterexample :
    exDeferredDraft.get "expired_time" ≠ .num (-1) ∧
      exHelpers.dateParse (toStr (exDeferredDraft.get "expired_time")) = none ∧
      (requests (submit exHelpers exEditEnv exOk exRand exDeferredDraft)).length = 1 := by
  decide

theorem find_spread (a b : Obj) (k : String) :
    (Obj.spread a b).find k = (b.find k).orElse fun _ => a.find k := by
  induction b with
  | nil => rfl
  | cons p b ih =>
    obtain ⟨k', v⟩ := p
    by_cases h : k' = k
    · subst h
      simp [Obj.spread, Obj.find_set, Obj.find]
    · have h2 : ¬ k = k' := fun e => h e.symm
      simp [Obj.spread, Obj.find_set, Obj.find, h, h2, ih]

theorem find_of_get_str {o : Obj} {k s : String} (h : o.get k = .str s) :
    o.find k = some (.str s) := by
  unfold Obj.get at h
  cases hf : o.find k with
  | none => rw [hf] at h; cases h
  | some v => rw [hf] at h; simpa using h

theorem find_of_get_num {o : Obj} {k : String} {n : Int} (h : o.get k = .num n) :
    o.find k = some (.num n) := by
  unfold Obj.get at h
  cases hf : o.find k with
  | none => rw [hf] at h; cases h
  | some v => rw [hf] at h; simpa using h

theorem find_of_has_false {o : Obj} {k : String} (h : o.has k = false) : o.find k = none := by
  unfold Obj.has at h
  cases hf : o.find k with
  | none => rfl
  | some v => rw [hf] at h; cases h

/-- C3 (amended): for all non-negative integers `d` and `h` with `h < 24` and
`(d*24+h)*3600` below `24h*10^6`, `loadToken` on a record of the wire schema
(a string `model_limits`, no day or hour field) whose `duration_seconds` is
`(d*24+h)*3600` builds form values with `duration_days = d` and
`duration_hours = h`. -/
theorem C3_load_recovers_days_hours (H : Helpers) (data : Obj) (d h : Nat) (hh : h < 24)
    (_hb : (d * 24 + h) * 3600 < 24 * 3600 * 10 ^ 6)
    (hds : data.get "duration_seconds" = .num (((d : Int) * 24 + h) * 3600))
    (hml : isStr (data.get "model_limits") = true)
    (hdd : data.has "duration_days" = false) (hdh : data.has "duration_hours" = false) :
    (loadValues H data).map (fun v => (v.get "duration_days", v.get "duration_hours"))
      = some (.num d, .num h) := by
  obtain ⟨s, hs⟩ : ∃ s, data.get "model_limits" = .str s := by
    unfold isStr at hml
    split at hml
    · exact ⟨_, by assumption⟩
    · cases hml
  set v0 := Obj.spread getInitValues data with hv0
  have f1 : v0.find "duration_seconds" = some (.num (((d : Int) * 24 + h) * 3600)) := by
    simp [hv0, find_spread, find_of_get_num hds]
  have f2 : v0.find "model_limits" = some (.str s) := by
    simp [hv0, find_spread, find_of_get_str hs]
  have f3 : v0.find "duration_days" = some (.num 0) := by
    simp [hv0, find_spread, find_of_has_false hdd, getInitValues, Obj.find]
  have f4 : v0.find "duration_hours" = some (.num 0) := by
    simp [hv0, find_spread, find_of_has_false hdh, getInitValues, Obj.find]
  have hE : ∀ k, k ≠ "expired_time" → (loadExpiry H v0).find k = v0.find k := by
    intro k hk
    unfold loadExpiry
    split_ifs <;> simp [Obj.find_set, hk]
  obtain ⟨v1, hv1, hL⟩ : ∃ v1, loadLimits (loadExpiry H v0) = some v1 ∧
      ∀ k, k ≠ "model_limits" → v1.find k = (loadExpiry H v0).find k := by
    have hm : (loadExpiry H v0).get "model_limits" = .str s := by
      simp [Obj.get, hE, f2]
    unfold loadLimits
    rw [hm]
    by_cases hst : s = ""
    · refine ⟨_, by simp [truthy, hst]; rfl, ?_⟩
      intro k hk
      simp [Obj.find_set, hk]
    · refine ⟨_, by simp [truthy, hst]; rfl, ?_⟩
      intro k hk
      simp [Obj.find_set, hk]
  have hD : ∀ k, k ≠ "daily_quota_limit" → ∀ v : Obj, (loadDaily v).find k = v.find k := by
    intro k hk v
    unfold loadDaily
    split_ifs <;> simp [Obj.find_set, hk]
  have g1 : v1.get "duration_seconds" = .num (((d : Int) * 24 + h) * 3600) := by
    simp [Obj.get, hL, hE, f1]
  have g3 : v1.get "duration_days" = .num 0 := by simp [Obj.get, hL, hE, f3]
  have g4 : v1.get "duration_hours" = .num 0 := by simp [Obj.get, hL, hE, f4]
  have e1 : ((d : Int) * 24 + h) * 3600 / 86400 = d := by omega
  have e2 : ((d : Int) * 24 + h) * 3600 % 86400 / 3600 = h := by omega
  unfold loadValues
  rw [hv1]
  simp only [Option.map_some', Option.some.injEq, Prod.mk.injEq]
  rw [get_of_find_eq (hD _ (by decide) _), get_of_find_eq (hD _ (by decide) _)]
  unfold loadDuration
  rw [g1]
  by_cases hpos : (0 : Int) < ((d : Int) * 24 + h) * 3600
  · simp [hpos, e1, e2]
  · have hd0 : d = 0 := by omega
    have hh0 : h = 0 := by omega
    subst hd0 hh0
    simp [g3, g4]

/-- C3, witness: a record of 2 days and 5 hours. -/
theorem C3_load_recovers_days_hours_witness :
    (loadValues exHelpers
        [("model_limits", .str "a,b"), ("duration_seconds", .num 190800)]).map
      (fun v => (v.get "duration_days", v.get "duration_hours"))
      = some (.num (2 : Nat), .num (5 : Nat)) :=
  C3_load_recovers_days_hours exHelpers
    [("model_limits", .str "a,b"), ("duration_seconds", .num 190800)] 2 5
    (by decide) (by decide) (by decide) (by decide) (by decide) (by decide)

/-- C3, counterexample: a record stored for 0 days and 24 hours, below the
bound, loads as 1 day and 0 hours. -/
theorem C3_counterexample :
    exDayRecord.get "duration_seconds" = .num ((0 * 24 + 24) * 3600) ∧
      (0 * 24 + 24) * 3600 < 24 * 3600 * 10 ^ 6 ∧
      (loadValues exHelpers exDayRecord).map
        (fun v => (v.get "duration_days", v.get "duration_hours"))
        = some (.num 1, .num 0) := by
  decide

theorem durationSeconds_prepared (l : Obj) (name : Val) :
    durationSeconds ((l.del "tokenCount").set "name" name) = durationSeconds l ∧
      durationSeconds (l.del "tokenCount") = durationSeconds l := by
  simp [durationSeconds]

theorem extendSeconds_prepared (l : Obj) (name : Val) :
    extendSeconds ((l.del "tokenCount").set "name" name) = extendSeconds l ∧
      extendSeconds (l.del "tokenCount") = extendSeconds l := by
  simp [extendSeconds]

theorem seconds_exact (d h : Nat) (hb : (d * 24 + h) * 3600 < 2 ^ 53) :
    jmul (jadd (jmul (numArg (.num d)) (.fin 24)) (numArg (.num h))) (.fin 3600)
      = .fin (((d : Int) * 24 + h) * 3600) := by
  rw [numArg_num d (by omega), numArg_num h (by omega), jmul_small _ _ (by omega),
    jadd_small _ _ (by omega), jmul_small _ _ (by omega)]

theorem durationSeconds_num (l : Obj) (d h : Nat) (hd : l.get "duration_days" = .num d)
    (hh : l.get "duration_hours" = .num h) (hb : (d * 24 + h) * 3600 < 2 ^ 53) :
    durationSeconds l = .fin (((d : Int) * 24 + h) * 3600) := by
  rw [durationSeconds, hd, hh]
  exact seconds_exact d h hb

theorem extendSeconds_num (l : Obj) (x y : Nat) (hx : l.get "extend_days" = .num x)
    (hy : l.get "extend_hours" = .num y) (hb : (x * 24 + y) * 3600 < 2 ^ 53) :
    extendSeconds l = .fin (((x : Int) * 24 + y) * 3600) := by
  rw [extendSeconds, hx, hy]
  exact seconds_exact x y hb

theorem extendEdit_of_not_pos (l : Obj) (ext : JNum) (h : jpos ext = false) :
    extendEdit l ext = l := by
  simp [extendEdit, h]

theorem extendCreate_of_not_pos (l : Obj) (ext : JNum) (h : jpos ext = false) :
    extendCreate l ext = l := by
  simp [extendCreate, h]

theorem editLocal_duration_unextended (H : Helpers) (values l : Obj)
    (hl : editLocal H values = .ok l) (hx : jpos (extendSeconds values) = false) :
    l.get "duration_seconds" = ofJ (durationSeconds values) := by
  obtain ⟨l1, h1, h2⟩ := (editLocal_ok_iff H values l).mp hl
  rw [(extendSeconds_prepared values (.str "")).2, extendEdit_of_not_pos _ _ hx] at h2
  rw [get_of_find_eq (joinLimits_find h2 _ (by decide) (by decide)),
    get_of_find_eq (parseExpiry_find h1 _ (by decide)),
    get_of_find_eq (deferEdit_find _ _ (by decide)), normalize_get_duration,
    (durationSeconds_prepared values (.str "")).2]

theorem createLocal_duration_unextended (H : Helpers) (rand : Nat → ℚ) (values l : Obj)
    (i pos pos' : Nat) (hl : createLocal H rand values i pos = .ok (l, pos'))
    (hx : jpos (extendSeconds values) = false) :
    l.get "duration_seconds" = ofJ (durationSeconds values) := by
  obtain ⟨name, l1, -, h1, h2⟩ := (createLocal_ok_iff H rand values l i pos pos').mp hl
  rw [(extendSeconds_prepared values (.str name)).1, extendCreate_of_not_pos _ _ hx] at h2
  rw [get_of_find_eq (joinLimits_find h2 _ (by decide) (by decide)),
    get_of_find_eq (parseExpiry_find h1 _ (by decide)),
    get_of_find_eq (deferCreate_find _ _ (by decide)), normalize_get_duration,
    (durationSeconds_prepared values (.str name)).1]

theorem createLoop_requests_forall (H : Helpers) (resp : Nat → Resp) (rand : Nat → ℚ)
    (values : Obj) (P : Obj → Prop)
    (hP : ∀ i pos l pos', createLocal H rand values i pos = .ok (l, pos') → P l)
    (todo i pos sc : Nat) :
    ∀ b ∈ requests (createLoop H resp rand values todo i pos sc).events, P b := by
  induction todo generalizing i pos sc with
  | zero =>
    intro b hb
    simp [createLoop, requests] at hb
  | succ todo ih =>
    intro b hb
    unfold createLoop at hb
    split at hb
    · simp [requests] at hb
    · simp [requests] at hb
    · rename_i l pos' hok
      have hPl := hP i pos l pos' hok
      split_ifs at hb
      · simp only [requests, List.mem_cons] at hb
        rcases hb with rfl | hb
        · exact hPl
        · exact ih _ _ _ b hb
      · simp only [requests, List.mem_cons, List.mem_nil_iff, or_false] at hb
        rw [hb]
        exact hPl

theorem createLoop_requests_ne_nil (H : Helpers) (resp : Nat → Resp) (rand : Nat → ℚ)
    (values : Obj) (hok : ∀ i pos, ∃ l pos', createLocal H rand values i pos = .ok (l, pos'))
    (todo i pos sc : Nat) :
    requests (createLoop H resp rand values (todo + 1) i pos sc).events ≠ [] := by
  obtain ⟨l, pos', hl⟩ := hok i pos
  unfold createLoop
  simp only [hl]
  split_ifs <;> simp [requests]

theorem toNat_tokenCount_pos (values : Obj) (h : 1 ≤ tokenCount values) :
    ∃ n, (tokenCount values).toNat = n + 1 := by
  refine ⟨(tokenCount values).toNat - 1, ?_⟩
  omega

theorem requests_submit_edit (H : Helpers) (env : Env) (resp : Nat → Resp) (rand : Nat → ℚ)
    (values l : Obj) (he : env.isEdit = true) (hl : editLocal H values = .ok l) :
    requests (submit H env resp rand values) = [editBody env l] := by
  simp only [submit, he, submitEdit, hl, if_true, requests]
  rw [requests_append, requests_finish]
  split_ifs <;> rfl

theorem editBody_get (env : Env) (l : Obj) (k : String) (hk : k ≠ "id") :
    (editBody env l).get k = l.get k := by
  simp [editBody, hk]

/-- C4 (amended): in create and in edit mode, for all non-negative integers
`d` and `h` with `(d*24+h)*3600` below `2^53`, a draft with `duration_days = d`
and `duration_hours = h` that requests no extension and passes validation sends
at least one request, and every request body has `duration_seconds` equal to
`(d*24+h)*3600`. -/
theorem C4_duration_seconds (H : Helpers) (env : Env) (resp : Nat → Resp) (rand : Nat → ℚ)
    (values : Obj) (d h : Nat) (hv : passesValidation H env values = true)
    (hd : values.get "duration_days" = .num d) (hh : values.get "duration_hours" = .num h)
    (hx : values.get "extend_days" = .num 0) (hy : values.get "extend_hours" = .num 0)
    (hb : (d * 24 + h) * 3600 < 2 ^ 53) :
    requests (submit H env resp rand values) ≠ [] ∧
      ∀ b ∈ requests (submit H env resp rand values),
        b.get "duration_seconds" = .num (((d : Int) * 24 + h) * 3600) := by
  have hdur := durationSeconds_num values d h hd hh hb
  have hext : jpos (extendSeconds values) = false := by
    rw [extendSeconds_num values 0 0 hx hy (by decide)]
    rfl
  cases hedit : env.isEdit with
  | true =>
    obtain ⟨l, hl⟩ := editLocal_of_valid H env values hedit hv
    rw [requests_submit_edit H env resp rand values l hedit hl]
    refine ⟨by simp, ?_⟩
    intro b hb
    simp only [List.mem_singleton] at hb
    rw [hb, editBody_get _ _ _ (by decide), editLocal_duration_unextended H values l hl hext,
      hdur]
    rfl
  | false =>
    rw [requests_submit_create H env resp rand values hedit]
    have hcount : 1 ≤ tokenCount values := by
      simp only [passesValidation, Bool.and_eq_true, Bool.or_eq_true, hedit,
        Bool.false_eq_true, false_or, decide_eq_true_eq] at hv
      exact hv.2.2
    obtain ⟨n, hn⟩ := toNat_tokenCount_pos values hcount
    unfold submitCreateLoop
    constructor
    · rw [hn]
      exact createLoop_requests_ne_nil H resp rand values
        (createLocal_of_valid H env rand values hedit hv) n 0 0 0
    · apply createLoop_requests_forall
      intro i pos l pos' hl
      rw [createLocal_duration_unextended H rand values l i pos pos' hl hext, hdur]
      rfl

/-- C4, witness: the sample draft of an unused first-use token, whose hidden
expiration field has no value, with 2 days and 5 hours, in create mode. -/
theorem C4_duration_seconds_witness :
    passesValidation exHelpers exCreateEnv
        ((exDeferredDraft.set "duration_days" (.num (2 : Nat))).set "duration_hours"
          (.num (5 : Nat))) = true ∧
      requests (submit exHelpers exCreateEnv exOk exRand
        ((exDeferredDraft.set "duration_days" (.num (2 : Nat))).set "duration_hours"
          (.num (5 : Nat)))) ≠ [] ∧
      ∀ b ∈ requests (submit exHelpers exCreateEnv exOk exRand
        ((exDeferredDraft.set "duration_days" (.num (2 : Nat))).set "duration_hours"
          (.num (5 : Nat)))),
        b.get "duration_seconds" = .num ((((2 : Nat) : Int) * 24 + (5 : Nat)) * 3600) :=
  ⟨by decide, C4_duration_seconds exHelpers exCreateEnv exOk exRand
    ((exDeferredDraft.set "duration_days" (.num (2 : Nat))).set "duration_hours"
      (.num (5 : Nat))) 2 5
    (by decide) (by decide) (by decide) (by decide) (by decide) (by decide)⟩

/-- C4, counterexample: the sample draft with `duration_days = 10^15`,
`duration_hours = 1` and no extension passes validation, and the request of
the edit branch carries `duration_seconds = 86400000000000000000`, which is not
`(10^15*24+1)*3600 = 86400000000000003600`: the sum `24*10^15 + 1` is rounded
to the double `24*10^15`. -/
theorem C4_counterexample :
    exBigDurationDraft.get "duration_days" = .num 1000000000000000 ∧
      exBigDurationDraft.get "duration_hours" = .num 1 ∧
      exBigDurationDraft.get "extend_days" = .num 0 ∧
      exBigDurationDraft.get "extend_hours" = .num 0 ∧
      passesValidation exHelpers exEditEnv exBigDurationDraft = true ∧
      (requests (submit exHelpers exEditEnv exOk exRand exBigDurationDraft)).map
        (fun b => b.get "duration_seconds") = [.num 86400000000000000000] ∧
      ((1000000000000000 : Int) * 24 + 1) * 3600 = 86400000000000003600 := by
  decide

theorem chars_all_alnum : ∀ c ∈ chars.data, c.isAlphanum = true := by decide

theorem chars_length : chars.data.length = 62 := by decide

theorem charAt_chars (r : ℚ) (h0 : 0 ≤ r) (h1 : r < 1) :
    ∃ c, charAt chars ⌊r * (chars.length : ℚ)⌋ = String.singleton c ∧ c.isAlphanum = true := by
  have hlen : (chars.length : ℚ) = 62 := by
    have : chars.length = 62 := chars_length
    rw [this]; norm_num
  rw [hlen]
  have hnn : (0 : Int) ≤ ⌊r * 62⌋ := Int.floor_nonneg.mpr (by positivity)
  have hlt : ⌊r * 62⌋ < (62 : Int) := by
    rw [Int.floor_lt]
    push_cast
    linarith
  have hidx : (⌊r * 62⌋).toNat < chars.data.length := by
    rw [chars_length]; omega
  refine ⟨chars.data.get ⟨_, hidx⟩, ?_, chars_all_alnum _ (List.get_mem _ _ _)⟩
  unfold charAt
  rw [if_neg (by omega), List.get?_eq_get hidx]

theorem suffix_spec (rand : Nat → ℚ) (hrand : ∀ i, 0 ≤ rand i ∧ rand i < 1) (pos : Nat) :
    (generateRandomSuffix rand pos).1.length = 6 ∧
      ∀ c ∈ (generateRandomSuffix rand pos).1.data, c.isAlphanum = true := by
  obtain ⟨c0, e0, a0⟩ := charAt_chars (rand (pos + 0)) (hrand _).1 (hrand _).2
  obtain ⟨c1, e1, a1⟩ := charAt_chars (rand (pos + 1)) (hrand _).1 (hrand _).2
  obtain ⟨c2, e2, a2⟩ := charAt_chars (rand (pos + 2)) (hrand _).1 (hrand _).2
  obtain ⟨c3, e3, a3⟩ := charAt_chars (rand (pos + 3)) (hrand _).1 (hrand _).2
  obtain ⟨c4, e4, a4⟩ := charAt_chars (rand (pos + 4)) (hrand _).1 (hrand _).2
  obtain ⟨c5, e5, a5⟩ := charAt_chars (rand (pos + 5)) (hrand _).1 (hrand _).2
  have hs : (generateRandomSuffix rand pos).1 = ⟨[c0, c1, c2, c3, c4, c5]⟩ := by
    unfold generateRandomSuffix
    have hr : List.range 6 = [0, 1, 2, 3, 4, 5] := by decide
    simp only [hr, List.foldl_cons, List.foldl_nil, e0, e1, e2, e3, e4, e5]
    apply String.ext
    simp [String.data_append, String.singleton]
  rw [hs]
  refine ⟨rfl, ?_⟩
  intro c hc
  simp only [List.mem_cons, List.mem_nil_iff, or_false] at hc
  rcases hc with rfl | rfl | rfl | rfl | rfl | rfl <;> assumption

theorem posts_append (a b : List Event) : posts (a ++ b) = posts a ++ posts b := by
  induction a with
  | nil => rfl
  | cons e a ih => cases e <;> simp [posts, ih]

theorem posts_finish (env : Env) : posts (finish env) = [] := by
  unfold finish
  split_ifs <;> rfl

theorem posts_submit_create (H : Helpers) (env : Env) (resp : Nat → Resp)
    (rand : Nat → ℚ) (values : Obj) (hc : env.isEdit = false) :
    posts (submit H env resp rand values)
      = posts (submitCreateLoop H resp rand values).events := by
  simp only [submit, hc, submitCreate, posts, Bool.false_eq_true, if_false]
  split_ifs
  · rfl
  · rw [posts_append, posts_append, posts_finish]
    simp [posts]
  · rw [posts_append, posts_append, posts_finish]
    simp [posts]

theorem createLoop_all_ok (H : Helpers) (resp : Nat → Resp) (rand : Nat → ℚ) (values : Obj)
    (hok : ∀ i pos, ∃ l pos', createLocal H rand values i pos = .ok (l, pos'))
    (todo i pos sc : Nat) (hall : ∀ j, i ≤ j → j < i + todo → (resp j).success = true) :
    (posts (createLoop H resp rand values todo i pos sc).events).length = todo ∧
      (createLoop H resp rand values todo i pos sc).successCount = sc + todo ∧
      (createLoop H resp rand values todo i pos sc).threw = false := by
  induction todo generalizing i pos sc with
  | zero => exact ⟨rfl, rfl, rfl⟩
  | succ todo ih =>
    obtain ⟨l, pos', hl⟩ := hok i pos
    have hi := hall i (le_refl _) (by omega)
    obtain ⟨a, b, c⟩ := ih (i + 1) pos' (sc + 1) (fun j h1 h2 => hall j (by omega) (by omega))
    unfold createLoop
    simp only [hl, hi, if_true, posts, List.length_cons]
    exact ⟨by rw [a], by rw [b]; omega, c⟩

theorem createLoop_first_fail (H : Helpers) (resp : Nat → Resp) (rand : Nat → ℚ)
    (values : Obj) (hok : ∀ i pos, ∃ l pos', createLocal H rand values i pos = .ok (l, pos'))
    (todo i pos sc m : Nat) (hm : m < todo)
    (hall : ∀ j, i ≤ j → j < i + m → (resp j).success = true)
    (hfail : (resp (i + m)).success = false) :
    (posts (createLoop H resp rand values todo i pos sc).events).length = m + 1 ∧
      (createLoop H resp rand values todo i pos sc).successCount = sc + m ∧
      (createLoop H resp rand values todo i pos sc).threw = false := by
  induction todo generalizing i pos sc m with
  | zero => omega
  | succ todo ih =>
    obtain ⟨l, pos', hl⟩ := hok i pos
    unfold createLoop
    cases m with
    | zero =>
      have hf : (resp i).success = false := by simpa using hfail
      simp [hl, hf, posts]
    | succ m =>
      have hi := hall i (le_refl _) (by omega)
      obtain ⟨a, b, c⟩ := ih (i + 1) pos' (sc + 1) m (by omega)
        (fun j h1 h2 => hall j (by omega) (by omega))
        (by rw [show i + 1 + m = i + (m + 1) by omega]; exact hfail)
      simp only [hl, hi, if_true, posts, List.length_cons]
      exact ⟨by rw [a], by rw [b]; omega, c⟩

theorem createLoop_quiet (H : Helpers) (resp : Nat → Resp) (rand : Nat → ℚ) (values : Obj)
    (todo i pos sc : Nat) :
    (∀ msg, Event.showSuccess msg ∉ (createLoop H resp rand values todo i pos sc).events) ∧
      Event.handleClose ∉ (createLoop H resp rand values todo i pos sc).events := by
  induction todo generalizing i pos sc with
  | zero => simp [createLoop]
  | succ todo ih =>
    unfold createLoop
    split
    · simp
    · simp
    · split_ifs
      · obtain ⟨a, b⟩ := ih (i + 1) (by assumption) (sc + 1)
        simp only [List.mem_cons, not_or]
        exact ⟨fun msg => ⟨by simp, a msg⟩, by simp, b⟩
      · simp

theorem createLoop_nth (H : Helpers) (resp : Nat → Resp) (rand : Nat → ℚ) (values : Obj)
    (Q : Nat → Obj → Prop)
    (hQ : ∀ i pos l pos', createLocal H rand values i pos = .ok (l, pos') → Q i l)
    (todo i pos sc j : Nat) (b : Obj)
    (hb : (posts (createLoop H resp rand values todo i pos sc).events).get? j = some b) :
    Q (i + j) b := by
  induction todo generalizing i pos sc j with
  | zero => simp [createLoop, posts] at hb
  | succ todo ih =>
    unfold createLoop at hb
    split at hb
    · simp [posts] at hb
    · simp [posts] at hb
    · rename_i l pos' hok
      have hQl := hQ i pos l pos' hok
      split_ifs at hb
      · cases j with
        | zero =>
          simp only [posts, List.get?_cons_zero, Option.some.injEq] at hb
          rw [← hb]
          exact hQl
        | succ j =>
          simp only [posts, List.get?_cons_succ] at hb
          have := ih (i + 1) pos' (sc + 1) j hb
          rw [show i + (j + 1) = i + 1 + j by omega]
          exact this
      · cases j with
        | zero =>
          simp only [posts, List.get?_cons_zero, Option.some.injEq] at hb
          rw [← hb]
          exact hQl
        | succ j => simp [posts] at hb

theorem submit_create_closing (H : Helpers) (env : Env) (resp : Nat → Resp)
    (rand : Nat → ℚ) (values : Obj) (hc : env.isEdit = false)
    (ht : (submitCreateLoop H resp rand values).threw = false) :
    (Event.showSuccess "令牌创建成功，请在列表页面点击复制获取令牌！"
        ∈ submit H env resp rand values
        ↔ 0 < (submitCreateLoop H resp rand values).successCount) ∧
      (Event.handleClose ∈ submit H env resp rand values
        ↔ 0 < (submitCreateLoop H resp rand values).successCount) := by
  obtain ⟨q1, q2⟩ := createLoop_quiet H resp rand values (tokenCount values).toNat 0 0 0
  have q1' := q1 "令牌创建成功，请在列表页面点击复制获取令牌！"
  have hfin1 : Event.showSuccess "令牌创建成功，请在列表页面点击复制获取令牌！" ∉ finish env := by
    unfold finish
    split_ifs <;> simp
  have hfin2 : Event.handleClose ∉ finish env := by
    unfold finish
    split_ifs <;> simp
  simp only [submit, hc, submitCreate, ht, Bool.false_eq_true, if_false, List.mem_cons,
    List.mem_append, false_or]
  unfold submitCreateLoop at *
  by_cases hs : 0 < (createLoop H resp rand values (tokenCount values).toNat 0 0 0).successCount
  · simp [hs]
  · simp [hs, q1', q2, hfin1, hfin2]

theorem parseInt10_num (n : Int) (h : n.natAbs < 10 ^ 21) : parseInt10 (.num n) = .fin n := by
  have h' : ¬ 1000000000000000000000 ≤ n.natAbs := by
    have : (10 : Nat) ^ 21 = 1000000000000000000000 := by norm_num
    omega
  simp [parseInt10, parseIntWith, h']

theorem tokenCount_num (values : Obj) (n : Nat)
    (h : parseInt10 (values.get "tokenCount") = .fin n) (h1 : 1 ≤ n) :
    (tokenCount values).toNat = n := by
  unfold tokenCount
  rw [h]
  split
  · rename_i heq
    simp only [JNum.fin.injEq] at heq
    omega
  · rename_i m _ heq
    simp only [JNum.fin.injEq] at heq
    rw [← heq]
    simp
  · rename_i heq
    cases heq
  · rename_i heq
    cases heq
  · rename_i heq
    cases heq

theorem createLocal_reaches (H : Helpers) (env : Env) (rand : Nat → ℚ) (values : Obj)
    (hc : env.isEdit = false) (hv : passesValidation H env values = true) (i pos : Nat) :
    (createLocal H rand values i pos).isOk = true := by
  obtain ⟨l, pos', hl⟩ := createLocal_of_valid H env rand values hc hv i pos
  rw [hl]
  rfl

theorem createLocal_of_reaches (H : Helpers) (rand : Nat → ℚ) (values : Obj)
    (hreach : ∀ i pos, (createLocal H rand values i pos).isOk = true) (i pos : Nat) :
    ∃ l pos', createLocal H rand values i pos = .ok (l, pos') := by
  obtain ⟨⟨l, pos'⟩, hl⟩ := (isOk_iff _).mp (hreach i pos)
  exact ⟨l, pos', hl⟩

/-- C5: in create mode, for every draft whose `tokenCount` reads as `n ≥ 1`
(`parseInt(values.tokenCount, 10)` is `n`) and whose iterations reach
`API.post`, and every sequence of outcomes whose first `k ≤ n` requests succeed
and, when `k < n`, whose request at position `k` fails: `k + 1` create requests
are issued when `k < n` and `n` when there is no failure, `successCount` ends
at `k`, and the success message is shown and the form closed exactly when
`k > 0`. -/
theorem C5_create_fail_fast (H : Helpers) (env : Env) (resp : Nat → Resp) (rand : Nat → ℚ)
    (values : Obj) (n k : Nat) (hc : env.isEdit = false)
    (hreach : ∀ i pos, (createLocal H rand values i pos).isOk = true)
    (htc : parseInt10 (values.get "tokenCount") = .fin n) (h1 : 1 ≤ n) (hk : k ≤ n)
    (hlead : ∀ j, j < k → (resp j).success = true)
    (hfail : k < n → (resp k).success = false) :
    (posts (submit H env resp rand values)).length = (if k < n then k + 1 else n) ∧
      (submitCreateLoop H resp rand values).successCount = k ∧
      (Event.showSuccess "令牌创建成功，请在列表页面点击复制获取令牌！"
        ∈ submit H env resp rand values ↔ 0 < k) ∧
      (Event.handleClose ∈ submit H env resp rand values ↔ 0 < k) := by
  have hok := createLocal_of_reaches H rand values hreach
  have hcount := tokenCount_num values n htc h1
  have hloop : (posts (submitCreateLoop H resp rand values).events).length
        = (if k < n then k + 1 else n) ∧
      (submitCreateLoop H resp rand values).successCount = k ∧
      (submitCreateLoop H resp rand values).threw = false := by
    unfold submitCreateLoop
    rw [hcount]
    by_cases hlt : k < n
    · have := createLoop_first_fail H resp rand values hok n 0 0 0 k hlt
        (fun j _ h2 => hlead j (by omega)) (by simpa using hfail hlt)
      simpa [hlt] using this
    · have hkn : k = n := by omega
      subst hkn
      have := createLoop_all_ok H resp rand values hok k 0 0 0
        (fun j _ h2 => hlead j (by omega))
      simpa [hlt] using this
  obtain ⟨a, b, c⟩ := hloop
  obtain ⟨d, e⟩ := submit_create_closing H env resp rand values hc c
  rw [posts_submit_create H env resp rand values hc]
  rw [b] at d e
  exact ⟨a, b, d, e⟩

/-- C5, witness: three tokens asked for from the sample draft of an unused
first-use token, the second request fails. -/
theorem C5_create_fail_fast_witness :
    (posts (submit exHelpers exCreateEnv exFailSecond exRand
        (exDeferredDraft.set "tokenCount" (.num (3 : Nat))))).length
        = (if 1 < 3 then 1 + 1 else 3) ∧
      (submitCreateLoop exHelpers exFailSecond exRand
        (exDeferredDraft.set "tokenCount" (.num (3 : Nat)))).successCount = 1 ∧
      (Event.showSuccess "令牌创建成功，请在列表页面点击复制获取令牌！"
        ∈ submit exHelpers exCreateEnv exFailSecond exRand
          (exDeferredDraft.set "tokenCount" (.num (3 : Nat))) ↔ 0 < 1) ∧
      (Event.handleClose ∈ submit exHelpers exCreateEnv exFailSecond exRand
          (exDeferredDraft.set "tokenCount" (.num (3 : Nat))) ↔ 0 < 1) :=
  C5_create_fail_fast exHelpers exCreateEnv exFailSecond exRand
    (exDeferredDraft.set "tokenCount" (.num (3 : Nat))) 3 1 (by decide)
    (createLocal_reaches exHelpers exCreateEnv exRand _ (by decide) (by decide))
    (by decide) (by decide) (by decide) (by decide) (by decide)

theorem createLocal_name (H : Helpers) (rand : Nat → ℚ) (values l : Obj) (i pos pos' : Nat)
    (hl : createLocal H rand values i pos = .ok (l, pos')) :
    ∃ name, createName rand values i pos = some (name, pos') ∧ l.get "name" = .str name := by
  obtain ⟨name, l1, hn, h1, h2⟩ := (createLocal_ok_iff H rand values l i pos pos').mp hl
  refine ⟨name, hn, ?_⟩
  rw [get_of_find_eq (joinLimits_find h2 _ (by decide) (by decide)),
    get_of_find_eq (extendCreate_find _ _ _ (by decide) (by decide)),
    get_of_find_eq (parseExpiry_find h1 _ (by decide)),
    get_of_find_eq (deferCreate_find _ _ (by decide)),
    get_of_find_eq (normalize_find _ _ (by decide) (by decide) (by decide) (by decide)
      (by decide) (by decide) (by decide))]
  simp

theorem dropWhile_of_head (p : Char → Bool) (l : List Char)
    (h : l.head?.map p = some false) : l.dropWhile p = l := by
  cases l with
  | nil => simp at h
  | cons c l =>
    simp only [List.head?_cons, Option.map_some', Option.some.injEq] at h
    simp [List.dropWhile, h]

theorem jsTrim_sandwich (lead core trail : List Char)
    (hlead : ∀ c ∈ lead, isJsSpace c = true) (htrail : ∀ c ∈ trail, isJsSpace c = true)
    (hfirst : core.head?.map isJsSpace = some false)
    (hlast : core.getLast?.map isJsSpace = some false) :
    jsTrim ⟨lead ++ core ++ trail⟩ = ⟨core⟩ := by
  have hne : core ≠ [] := by
    intro h
    simp [h] at hfirst
  have h1 : (lead ++ core ++ trail).dropWhile isJsSpace = core ++ trail := by
    rw [List.append_assoc, List.dropWhile_append_of_pos hlead]
    apply dropWhile_of_head
    rw [List.head?_append_of_ne_nil _ hne]
    exact hfirst
  have h2 : (core ++ trail).reverse.dropWhile isJsSpace = core.reverse := by
    rw [List.reverse_append,
      List.dropWhile_append_of_pos (fun c hc => htrail c (List.mem_reverse.mp hc))]
    apply dropWhile_of_head
    rw [List.head?_reverse]
    exact hlast
  unfold jsTrim
  simp only [h1, h2, List.reverse_reverse]

theorem name_sandwich (s : String) (h : jsTrim s ≠ "") :
    ∃ lead core trail : List Char, s = ⟨lead ++ core ++ trail⟩ ∧ jsTrim s = ⟨core⟩ ∧
      (∀ c ∈ lead, isJsSpace c = true) ∧ (∀ c ∈ trail, isJsSpace c = true) ∧
      core.head?.map isJsSpace = some false ∧ core.getLast?.map isJsSpace = some false := by
  have hrest : s.data.dropWhile isJsSpace
      = ((s.data.dropWhile isJsSpace).reverse.dropWhile isJsSpace).reverse
        ++ ((s.data.dropWhile isJsSpace).reverse.takeWhile isJsSpace).reverse := by
    rw [← List.reverse_append, List.takeWhile_append_dropWhile, List.reverse_reverse]
  have hcore : ((s.data.dropWhile isJsSpace).reverse.dropWhile isJsSpace).reverse ≠ [] := by
    intro hnil
    apply h
    unfold jsTrim
    rw [hnil]
  refine ⟨s.data.takeWhile isJsSpace,
    ((s.data.dropWhile isJsSpace).reverse.dropWhile isJsSpace).reverse,
    ((s.data.dropWhile isJsSpace).reverse.takeWhile isJsSpace).reverse, ?_, rfl, ?_, ?_, ?_, ?_⟩
  · apply String.ext
    rw [List.append_assoc, ← hrest, List.takeWhile_append_dropWhile]
  · intro c hc
    exact List.mem_takeWhile_imp hc
  · intro c hc
    exact List.mem_takeWhile_imp (List.mem_reverse.mp hc)
  · have h1 := List.head?_dropWhile_not isJsSpace s.data
    rw [hrest, List.head?_append_of_ne_nil _ hcore] at h1
    cases hh : (((s.data.dropWhile isJsSpace).reverse.dropWhile isJsSpace).reverse).head? with
    | none => exact absurd (List.head?_eq_none_iff.mp hh) hcore
    | some c =>
      rw [hh] at h1
      simpa using h1
  · rw [List.getLast?_reverse]
    have h1 := List.head?_dropWhile_not isJsSpace (s.data.dropWhile isJsSpace).reverse
    cases hh : ((s.data.dropWhile isJsSpace).reverse.dropWhile isJsSpace).head? with
    | none =>
      exfalso
      apply hcore
      rw [List.head?_eq_none_iff.mp hh]
      rfl
    | some c =>
      rw [hh] at h1
      simpa using h1

/-- C6: in create mode, for every draft whose `tokenCount` reads as `n ≥ 1`
(`parseInt(values.tokenCount, 10)` is `n`), whose iterations reach `API.post`
and whose name is white space, then a text `core` that neither starts nor ends
with white space and is not empty, then white space, and for every random
source with values in `[0,1)`: when all requests succeed exactly `n` create
requests are issued, the first carries the trimmed name `core`, and each other
one carries `core`, a `-` and six characters drawn from `A-Z`, `a-z`, `0-9`. -/
theorem C6_create_names (H : Helpers) (env : Env) (resp : Nat → Resp) (rand : Nat → ℚ)
    (values : Obj) (n : Nat) (lead core trail : List Char) (hc : env.isEdit = false)
    (hreach : ∀ i pos, (createLocal H rand values i pos).isOk = true)
    (htc : parseInt10 (values.get "tokenCount") = .fin n) (h1 : 1 ≤ n)
    (hname : values.get "name" = .str ⟨lead ++ core ++ trail⟩)
    (hlead : ∀ c ∈ lead, isJsSpace c = true) (htrail : ∀ c ∈ trail, isJsSpace c = true)
    (hfirst : core.head?.map isJsSpace = some false)
    (hlast : core.getLast?.map isJsSpace = some false)
    (hrand : ∀ i, 0 ≤ rand i ∧ rand i < 1)
    (hall : ∀ j, j < n → (resp j).success = true) :
    (posts (submit H env resp rand values)).length = n ∧
      ∀ i b, (posts (submit H env resp rand values)).get? i = some b →
        (i = 0 → b.get "name" = .str ⟨core⟩) ∧
        (0 < i → ∃ sfx : String, b.get "name" = .str (⟨core⟩ ++ "-" ++ sfx) ∧
          sfx.length = 6 ∧ ∀ c ∈ sfx.data, c.isAlphanum = true) := by
  have hok := createLocal_of_reaches H rand values hreach
  have hcount := tokenCount_num values n htc h1
  have htrim := jsTrim_sandwich lead core trail hlead htrail hfirst hlast
  have hnb : jsTrim ⟨lead ++ core ++ trail⟩ ≠ "" := by
    rw [htrim]
    intro h
    have : core = [] := congrArg String.data h
    simp [this] at hfirst
  rw [posts_submit_create H env resp rand values hc]
  unfold submitCreateLoop
  rw [hcount]
  refine ⟨(createLoop_all_ok H resp rand values hok n 0 0 0
    (fun j _ h2 => hall j (by omega))).1, ?_⟩
  intro i b hb
  have key := createLoop_nth H resp rand values
    (fun i l => (i = 0 → l.get "name" = .str ⟨core⟩) ∧
      (0 < i → ∃ sfx : String, l.get "name" = .str (⟨core⟩ ++ "-" ++ sfx) ∧
        sfx.length = 6 ∧ ∀ c ∈ sfx.data, c.isAlphanum = true))
    (by
      intro i pos l pos' hl
      obtain ⟨name, hcn, hg⟩ := createLocal_name H rand values l i pos pos' hl
      unfold createName at hcn
      rw [hname] at hcn
      simp only [hnb, if_false, ne_eq, not_false_eq_true, and_true] at hcn
      rw [htrim] at hcn
      constructor
      · intro hi
        simp only [hi, if_true, Option.some.injEq, Prod.mk.injEq] at hcn
        rw [hg, ← hcn.1]
      · intro hi
        have hne : ¬ i = 0 := by omega
        simp only [hne, if_false, Option.some.injEq, Prod.mk.injEq] at hcn
        refine ⟨(generateRandomSuffix rand pos).1, ?_, suffix_spec rand hrand pos⟩
        rw [hg, ← hcn.1])
    n 0 0 0 i b hb
  simpa using key

/-- C6, witness: three tokens named from the sample draft whose name is ` tok `
with a blank at either end; the requests carry `tok`, all succeed. -/
theorem C6_create_names_witness :
    (exPaddedDraft.set "tokenCount" (.num (3 : Nat))).get "name" = .str " tok " ∧
      (posts (submit exHelpers exCreateEnv exOk exRand
        (exPaddedDraft.set "tokenCount" (.num (3 : Nat))))).length = 3 ∧
      ∀ i b, (posts (submit exHelpers exCreateEnv exOk exRand
          (exPaddedDraft.set "tokenCount" (.num (3 : Nat))))).get? i = some b →
        (i = 0 → b.get "name" = .str "tok") ∧
        (0 < i → ∃ sfx : String, b.get "name" = .str ("tok" ++ "-" ++ sfx) ∧
          sfx.length = 6 ∧ ∀ c ∈ sfx.data, c.isAlphanum = true) :=
  ⟨by decide, C6_create_names exHelpers exCreateEnv exOk exRand
    (exPaddedDraft.set "tokenCount" (.num (3 : Nat)))
    3 [' '] ['t', 'o', 'k'] [' '] (by decide)
    (createLocal_reaches exHelpers exCreateEnv exRand _ (by decide) (by decide))
    (by decide) (by decide) (by decide) (by decide) (by decide) (by decide) (by decide)
    (by
      intro i
      have h2 : ((i % 20 : Nat) : ℚ) < 20 := by
        exact_mod_cast Nat.mod_lt i (by decide)
      simp only [exRand]
      constructor
      · positivity
      · rw [div_lt_one (by norm_num)]
        exact h2)
    (by intro j _; rfl)⟩

theorem create_names_sample :
    (posts (submit exHelpers exCreateEnv exOk (fun _ => 0)
        (exPaddedDraft.set "tokenCount" (.num 1)))).map (fun b => b.get "name")
      = [.str "tok"] := by
  decide

theorem asNum_orElse_num (D : Int) : asNum (orElse (.num D) (.num 0)) = .fin D := by
  by_cases h : D = 0
  · subst h; rfl
  · simp [orElse, truthy, h, asNum]

theorem edit_prepared_get (values : Obj) (k : String) (h1 : k ≠ "remain_quota")
    (h2 : k ≠ "extend_days") (h3 : k ≠ "extend_hours") (h4 : k ≠ "duration_seconds")
    (h5 : k ≠ "duration_days") (h6 : k ≠ "duration_hours") (h7 : k ≠ "daily_quota_limit")
    (h8 : k ≠ "tokenCount") :
    (normalize (values.del "tokenCount")).1.get k = values.get k := by
  apply get_of_find_eq
  rw [normalize_find _ _ h1 h2 h3 h4 h5 h6 h7]
  simp [Obj.find_del, h8]

/-- C7 (amended): in edit mode, for every draft with `start_on_first_use =
true`, `first_used_time = 0`, `expired_time = -1`, model limits that are a list,
non-negative integers `duration_days = d`, `duration_hours = h` and an extension
of `x` days and `y` hours with `x*24+y > 0`, where `(d*24+h)*3600 +
(x*24+y)*3600` is below `2^53`: exactly one request is sent; its
`duration_seconds` is `(d*24+h)*3600 + (x*24+y)*3600` and its `expired_time` is
still `-1`. -/
theorem C7_first_use_extension (H : Helpers) (env : Env) (resp : Nat → Resp)
    (rand : Nat → ℚ) (values : Obj) (d h x y : Nat) (hedit : env.isEdit = true)
    (hs : values.get "start_on_first_use" = .bool true)
    (hf : values.get "first_used_time" = .num 0)
    (he : values.get "expired_time" = .num (-1))
    (hd : values.get "duration_days" = .num d) (hh : values.get "duration_hours" = .num h)
    (hx : values.get "extend_days" = .num x) (hy : values.get "extend_hours" = .num y)
    (hpos : 0 < x * 24 + y) (hj : joinable (values.get "model_limits") = true)
    (hb : (d * 24 + h) * 3600 + (x * 24 + y) * 3600 < 2 ^ 53) :
    (requests (submit H env resp rand values)).map
        (fun b => (b.get "duration_seconds", b.get "expired_time"))
      = [(.num (((d : Int) * 24 + h) * 3600 + ((x : Int) * 24 + y) * 3600), .num (-1))] := by
  have gs := edit_prepared_get values "start_on_first_use" (by decide) (by decide) (by decide)
    (by decide) (by decide) (by decide) (by decide) (by decide)
  have gf := edit_prepared_get values "first_used_time" (by decide) (by decide) (by decide)
    (by decide) (by decide) (by decide) (by decide) (by decide)
  have ge := edit_prepared_get values "expired_time" (by decide) (by decide) (by decide)
    (by decide) (by decide) (by decide) (by decide) (by decide)
  have gm := edit_prepared_get values "model_limits" (by decide) (by decide) (by decide)
    (by decide) (by decide) (by decide) (by decide) (by decide)
  have gd : (normalize (values.del "tokenCount")).1.get "duration_seconds"
      = .num (((d : Int) * 24 + h) * 3600) := by
    rw [normalize_get_duration, (durationSeconds_prepared values (.str "")).2,
      durationSeconds_num values d h hd hh (by omega)]
    rfl
  have hext : extendSeconds (values.del "tokenCount")
      = .fin (((x : Int) * 24 + y) * 3600) := by
    rw [(extendSeconds_prepared values (.str "")).2,
      extendSeconds_num values x y hx hy (by omega)]
  have hjp : jpos (.fin (((x : Int) * 24 + y) * 3600)) = true := by
    simp only [jpos, decide_eq_true_eq]
    omega
  have h0 : numArg (.num 0) = .fin 0 := numArg_num 0 (by decide)
  have hsum : jadd (.fin (((d : Int) * 24 + h) * 3600)) (.fin (((x : Int) * 24 + y) * 3600))
      = .fin (((d : Int) * 24 + h) * 3600 + ((x : Int) * 24 + y) * 3600) :=
    jadd_small _ _ (by omega)
  rw [hs] at gs
  rw [hf] at gf
  rw [he] at ge
  set n1 := (normalize (values.del "tokenCount")).1 with hn1
  have hdefer : deferEdit n1 = n1.set "expired_time" (.num (-1)) := by
    simp [deferEdit, gs, gf, ge, truthy, h0, notOrLe0, hasValidExpired]
  have hparse : parseExpiry H (deferEdit n1) = some (n1.set "expired_time" (.num (-1))) := by
    rw [hdefer]
    simp [parseExpiry]
  have hextend : extendEdit (n1.set "expired_time" (.num (-1)))
        (.fin (((x : Int) * 24 + y) * 3600))
      = (n1.set "expired_time" (.num (-1))).set "duration_seconds"
          (.num (((d : Int) * 24 + h) * 3600 + ((x : Int) * 24 + y) * 3600)) := by
    simp [extendEdit, hjp, gs, gf, truthy, h0, notOrLe0, extendDuration, gd,
      asNum_orElse_num, hsum, ofJ]
  obtain ⟨l, hl⟩ := joinLimits_isSome
    ((n1.set "expired_time" (.num (-1))).set "duration_seconds"
      (.num (((d : Int) * 24 + h) * 3600 + ((x : Int) * 24 + y) * 3600)))
    (by simpa [gm] using hj)
  have hok : editLocal H values = .ok l :=
    (editLocal_ok_iff H values l).mpr ⟨_, hparse, by rw [hext, hextend]; exact hl⟩
  rw [requests_submit_edit H env resp rand values l hedit hok]
  simp only [List.map_cons, List.map_nil]
  rw [editBody_get _ _ _ (by decide), editBody_get _ _ _ (by decide),
    get_of_find_eq (joinLimits_find hl _ (by decide) (by decide)),
    get_of_find_eq (joinLimits_find hl _ (by decide) (by decide))]
  simp

/-- C7, witness: the sample draft as an unused first-use token of 1 day,
extended by 2 days. -/
theorem C7_first_use_extension_witness :
    (requests (submit exHelpers exEditEnv exOk exRand
        (((exDraft.set "start_on_first_use" (.bool true)).set "duration_days"
          (.num (1 : Nat))).set "extend_days" (.num (2 : Nat))))).map
        (fun b => (b.get "duration_seconds", b.get "expired_time"))
      = [(.num ((((1 : Nat) : Int) * 24 + (0 : Nat)) * 3600
          + (((2 : Nat) : Int) * 24 + (0 : Nat)) * 3600), .num (-1))] :=
  C7_first_use_extension exHelpers exEditEnv exOk exRand
    (((exDraft.set "start_on_first_use" (.bool true)).set "duration_days"
      (.num (1 : Nat))).set "extend_days" (.num (2 : Nat))) 1 0 2 0
    (by decide) (by decide) (by decide) (by decide) (by decide) (by decide) (by decide)
    (by decide) (by decide) (by decide) (by decide)

/-- C7, counterexample: the sample draft of an unused first-use token with
`duration_days = 10^15`, `duration_hours = 1` and an extension of 1 day sends
`duration_seconds = 86400000000000081920`, which is not `(10^15*24+1)*3600 +
(1*24+0)*3600 = 86400000000000090000`; its `expired_time` is `-1`. -/
theorem C7_counterexample :
    exBigFirstUseDraft.get "start_on_first_use" = .bool true ∧
      exBigFirstUseDraft.get "first_used_time" = .num 0 ∧
      exBigFirstUseDraft.get "expired_time" = .num (-1) ∧
      exBigFirstUseDraft.get "duration_days" = .num 1000000000000000 ∧
      exBigFirstUseDraft.get "duration_hours" = .num 1 ∧
      exBigFirstUseDraft.get "extend_days" = .num 1 ∧
      exBigFirstUseDraft.get "extend_hours" = .num 0 ∧
      (requests (submit exHelpers exEditEnv exOk exRand exBigFirstUseDraft)).map
        (fun b => (b.get "duration_seconds", b.get "expired_time"))
        = [(.num 86400000000000081920, .num (-1))] ∧
      ((1000000000000000 : Int) * 24 + 1) * 3600 + (1 * 24 + 0) * 3600
        = 86400000000000090000 := by
  decide

theorem validator_future (H : Helpers) (nowMs p : Int) (s : String) (hne : s ≠ "")
    (hp : H.dateParse s = some p) (hvalid : expiredTimeValidator H nowMs (.str s) = none) :
    nowMs < p := by
  simp only [expiredTimeValidator, truthy, toStr, hp, reduceCtorEq, bne_iff_ne, ne_eq,
    false_or, Bool.not_eq_true, bne_eq_false_iff_eq, hne, if_false] at hvalid
  by_contra hle
  rw [if_pos (by omega)] at hvalid
  cases hvalid

/-- C8 (amended): in edit mode, for every draft with `start_on_first_use =
false`, model limits that are a list, a non-empty `expired_time` string that
parses to `p` milliseconds and has passed the validator of the field at a clock
at or after 1970 (`p` is in the future), and an extension of `x` days and `y`
hours with `x*24+y > 0`, where `ceil(p/1000) + (x*24+y)*3600` is below `2^53`:
exactly one request is sent; its `expired_time` is `ceil(p/1000) +
(x*24+y)*3600` and its `duration_seconds` is the plain conversion of the
duration fields, without the extension. -/
theorem C8_expiry_extension (H : Helpers) (env : Env) (resp : Nat → Resp)
    (rand : Nat → ℚ) (values : Obj) (s : String) (p nowMs : Int) (x y : Nat)
    (hedit : env.isEdit = true)
    (hs : values.get "start_on_first_use" = .bool false)
    (he : values.get "expired_time" = .str s) (hne : s ≠ "")
    (hp : H.dateParse s = some p)
    (hvalid : expiredTimeValidator H nowMs (.str s) = none) (hclock : 0 ≤ nowMs)
    (hx : values.get "extend_days" = .num x) (hy : values.get "extend_hours" = .num y)
    (hpos : 0 < x * 24 + y)
    (hj : joinable (values.get "model_limits") = true)
    (hb : ceilDiv1000 p + ((x : Int) * 24 + y) * 3600 < 2 ^ 53) :
    (requests (submit H env resp rand values)).map
        (fun b => (b.get "expired_time", b.get "duration_seconds"))
      = [(.num (ceilDiv1000 p + ((x : Int) * 24 + y) * 3600),
          ofJ (durationSeconds values))] := by
  have hfut := validator_future H nowMs p s hne hp hvalid
  have hc1 : 1 ≤ ceilDiv1000 p := by
    unfold ceilDiv1000
    omega
  have gs := edit_prepared_get values "start_on_first_use" (by decide) (by decide) (by decide)
    (by decide) (by decide) (by decide) (by decide) (by decide)
  have ge := edit_prepared_get values "expired_time" (by decide) (by decide) (by decide)
    (by decide) (by decide) (by decide) (by decide) (by decide)
  have gm := edit_prepared_get values "model_limits" (by decide) (by decide) (by decide)
    (by decide) (by decide) (by decide) (by decide) (by decide)
  have gd : (normalize (values.del "tokenCount")).1.get "duration_seconds"
      = ofJ (durationSeconds values) := by
    rw [normalize_get_duration, (durationSeconds_prepared values (.str "")).2]
  have hext : extendSeconds (values.del "tokenCount")
      = .fin (((x : Int) * 24 + y) * 3600) := by
    rw [(extendSeconds_prepared values (.str "")).2,
      extendSeconds_num values x y hx hy (by omega)]
  have hjp : jpos (.fin (((x : Int) * 24 + y) * 3600)) = true := by
    simp only [jpos, decide_eq_true_eq]
    omega
  have hnum : numArg (.num (ceilDiv1000 p)) = .fin (ceilDiv1000 p) :=
    numArg_num _ (by omega)
  have hsum : jadd (.fin (ceilDiv1000 p)) (.fin (((x : Int) * 24 + y) * 3600))
      = .fin (ceilDiv1000 p + ((x : Int) * 24 + y) * 3600) :=
    jadd_small _ _ (by omega)
  have hne1 : ceilDiv1000 p ≠ -1 := by omega
  rw [hs] at gs
  rw [he] at ge
  set n1 := (normalize (values.del "tokenCount")).1 with hn1
  have hdefer : deferEdit n1 = n1 := by
    simp [deferEdit, gs, truthy]
  have hparse : parseExpiry H (deferEdit n1)
      = some (n1.set "expired_time" (.num (ceilDiv1000 p))) := by
    rw [hdefer]
    simp [parseExpiry, ge, toStr, hp]
  have hextend : extendEdit (n1.set "expired_time" (.num (ceilDiv1000 p)))
        (.fin (((x : Int) * 24 + y) * 3600))
      = (n1.set "expired_time" (.num (ceilDiv1000 p))).set "expired_time"
          (.num (ceilDiv1000 p + ((x : Int) * 24 + y) * 3600)) := by
    simp [extendEdit, hjp, gs, truthy, hnum, extendExpiry, hne1, jorZero, hsum, ofJ]
  obtain ⟨l, hl⟩ := joinLimits_isSome
    ((n1.set "expired_time" (.num (ceilDiv1000 p))).set "expired_time"
      (.num (ceilDiv1000 p + ((x : Int) * 24 + y) * 3600))) (by simpa [gm] using hj)
  have hok : editLocal H values = .ok l :=
    (editLocal_ok_iff H values l).mpr ⟨_, hparse, by rw [hext, hextend]; exact hl⟩
  rw [requests_submit_edit H env resp rand values l hedit hok]
  simp only [List.map_cons, List.map_nil]
  rw [editBody_get _ _ _ (by decide), editBody_get _ _ _ (by decide),
    get_of_find_eq (joinLimits_find hl _ (by decide) (by decide)),
    get_of_find_eq (joinLimits_find hl _ (by decide) (by decide))]
  simp [gd]

/-- C8, witness: the sample draft expiring in 2030, validated in 2023 and
extended by five hours. -/
theorem C8_expiry_extension_witness :
    expiredTimeValidator exHelpers 1700000000000 (.str "2030-01-01 00:00:00") = none ∧
      (requests (submit exHelpers exEditEnv exOk exRand
        ((exDraft.set "expired_time" (.str "2030-01-01 00:00:00")).set "extend_hours"
          (.num (5 : Nat))))).map
        (fun b => (b.get "expired_time", b.get "duration_seconds"))
      = [(.num (ceilDiv1000 1893456000000 + (((0 : Nat) : Int) * 24 + (5 : Nat)) * 3600),
          ofJ (durationSeconds ((exDraft.set "expired_time"
            (.str "2030-01-01 00:00:00")).set "extend_hours" (.num (5 : Nat)))))] :=
  ⟨by decide, C8_expiry_extension exHelpers exEditEnv exOk exRand
    ((exDraft.set "expired_time" (.str "2030-01-01 00:00:00")).set "extend_hours"
      (.num (5 : Nat)))
    "2030-01-01 00:00:00" 1893456000000 1700000000000 0 5
    (by decide) (by decide) (by decide) (by decide) (by decide) (by decide) (by decide)
    (by decide) (by decide) (by decide) (by decide) (by decide)⟩

/-- C8, counterexample: the sample draft has `start_on_first_use = false`, its
`expired_time` parses to a time in 2030 that the validator accepts in 2023, and
it asks for `10^15` more days and 1 more hour; the request carries
`expired_time = 86400000001893449728`, not `ceil(p/1000) + (10^15*24+1)*3600 =
86400000001893459600`. -/
theorem C8_counterexample :
    exBigExtendDraft.get "start_on_first_use" = .bool false ∧
      exBigExtendDraft.get "expired_time" = .str "2030-01-01 00:00:00" ∧
      exHelpers.dateParse "2030-01-01 00:00:00" = some 1893456000000 ∧
      expiredTimeValidator exHelpers 1700000000000 (.str "2030-01-01 00:00:00") = none ∧
      exBigExtendDraft.get "extend_days" = .num 1000000000000000 ∧
      exBigExtendDraft.get "extend_hours" = .num 1 ∧
      (requests (submit exHelpers exEditEnv exOk exRand exBigExtendDraft)).map
        (fun b => b.get "expired_time") = [.num 86400000001893449728] ∧
      ceilDiv1000 1893456000000 + ((1000000000000000 : Int) * 24 + 1) * 3600
        = 86400000001893459600 := by
  decide

theorem normalize_transient (l : Obj) :
    (normalize l).1.has "extend_days" = false ∧ (normalize l).1.has "extend_hours" = false ∧
      (normalize l).1.has "duration_days" = false ∧
      (normalize l).1.has "duration_hours" = false ∧
      (normalize l).1.has "tokenCount" = l.has "tokenCount" := by
  simp [normalize]

theorem editLocal_transientFree (H : Helpers) (env : Env) (values l : Obj)
    (hl : editLocal H values = .ok l) : transientFree (editBody env l) = true := by
  obtain ⟨l1, h1, h2⟩ := (editLocal_ok_iff H values l).mp hl
  obtain ⟨a, b, c, d, e⟩ := normalize_transient (values.del "tokenCount")
  have through : ∀ k, k ≠ "expired_time" → k ≠ "duration_seconds" → k ≠ "model_limits" →
      k ≠ "model_limits_enabled" → k ≠ "id" →
      (editBody env l).has k = (normalize (values.del "tokenCount")).1.has k := by
    intro k k1 k2 k3 k4 k5
    have : (editBody env l).has k = l.has k := by simp [editBody, k5]
    rw [this, has_of_find_eq (joinLimits_find h2 _ k3 k4),
      has_of_find_eq (extendEdit_find _ _ _ k1 k2), has_of_find_eq (parseExpiry_find h1 _ k1),
      has_of_find_eq (deferEdit_find _ _ k1)]
  unfold transientFree
  rw [through _ (by decide) (by decide) (by decide) (by decide) (by decide),
    through _ (by decide) (by decide) (by decide) (by decide) (by decide),
    through _ (by decide) (by decide) (by decide) (by decide) (by decide),
    through _ (by decide) (by decide) (by decide) (by decide) (by decide),
    through _ (by decide) (by decide) (by decide) (by decide) (by decide), a, b, c, d, e]
  simp

theorem createLocal_transientFree (H : Helpers) (rand : Nat → ℚ) (values l : Obj)
    (i pos pos' : Nat) (hl : createLocal H rand values i pos = .ok (l, pos')) :
    transientFree l = true := by
  obtain ⟨name, l1, -, h1, h2⟩ := (createLocal_ok_iff H rand values l i pos pos').mp hl
  obtain ⟨a, b, c, d, e⟩ := normalize_transient ((values.del "tokenCount").set "name" (.str name))
  have through : ∀ k, k ≠ "expired_time" → k ≠ "duration_seconds" → k ≠ "model_limits" →
      k ≠ "model_limits_enabled" →
      l.has k = (normalize ((values.del "tokenCount").set "name" (.str name))).1.has k := by
    intro k k1 k2 k3 k4
    rw [has_of_find_eq (joinLimits_find h2 _ k3 k4),
      has_of_find_eq (extendCreate_find _ _ _ k1 k2),
      has_of_find_eq (parseExpiry_find h1 _ k1), has_of_find_eq (deferCreate_find _ _ k1)]
  unfold transientFree
  rw [through _ (by decide) (by decide) (by decide) (by decide),
    through _ (by decide) (by decide) (by decide) (by decide),
    through _ (by decide) (by decide) (by decide) (by decide),
    through _ (by decide) (by decide) (by decide) (by decide),
    through _ (by decide) (by decide) (by decide) (by decide), a, b, c, d, e]
  simp

/-- C9: for every draft, in edit and in create mode, every request body that
`submit` sends has none of the keys `tokenCount`, `extend_days`,
`extend_hours`, `duration_days` and `duration_hours`. -/
theorem C9_no_transient_keys (H : Helpers) (env : Env) (resp : Nat → Resp) (rand : Nat → ℚ)
    (values : Obj) : (requests (submit H env resp rand values)).all transientFree = true := by
  rw [List.all_eq_true]
  cases hedit : env.isEdit with
  | true =>
    cases hl : editLocal H values with
    | ok l =>
      rw [requests_submit_edit H env resp rand values l hedit hl]
      intro b hb
      simp only [List.mem_singleton] at hb
      rw [hb]
      exact editLocal_transientFree H env values l hl
    | parseFail => simp [submit, hedit, submitEdit, hl, requests]
    | typeError => simp [submit, hedit, submitEdit, hl, requests]
  | false =>
    rw [requests_submit_create H env resp rand values hedit]
    exact createLoop_requests_forall H resp rand values (fun b => transientFree b = true)
      (fun i pos l pos' hl => createLocal_transientFree H rand values l i pos pos' hl) _ 0 0 0

/-- C10 (amended): for every prior quota and every input that `parseFloat`
maps to `NaN`, each amount-entry change handler raises no error and takes the
amount to be 0: the amount shown becomes 0 and the stored quota
(`remain_quota`, `daily_quota_limit`) becomes
`parseInt(renderUnitWithQuota(0)) || 0`, whatever it was before. -/
theorem C10_invalid_amount_sets_zero_quota (H : Helpers) (env : Env) (st : AmountState)
    (v : Val) (hm : env.formMounted = true) (hnan : H.parseFloat v = none) :
    (onAmountChange H env st v).amountValue = 0 ∧
      (onAmountChange H env st v).form.get "remain_quota"
        = ofJ (jorZero (parseIntQ (H.renderUnitWithQuota 0))) ∧
      (onDailyAmountChange H env st v).dailyAmountValue = 0 ∧
      (onDailyAmountChange H env st v).form.get "daily_quota_limit"
        = ofJ (jorZero (parseIntQ (H.renderUnitWithQuota 0))) := by
  simp [onAmountChange, onDailyAmountChange, hm, hnan]

/-- C10, witness: the text `abc` typed into the amount input over the default
form values. -/
theorem C10_invalid_amount_sets_zero_quota_witness :
    (onAmountChange exHelpers exEditEnv exAmountState (.str "abc")).amountValue = 0 ∧
      (onAmountChange exHelpers exEditEnv exAmountState (.str "abc")).form.get "remain_quota"
        = ofJ (jorZero (parseIntQ (exHelpers.renderUnitWithQuota 0))) ∧
      (onDailyAmountChange exHelpers exEditEnv exAmountState (.str "abc")).dailyAmountValue
        = 0 ∧
      (onDailyAmountChange exHelpers exEditEnv exAmountState (.str "abc")).form.get
        "daily_quota_limit" = ofJ (jorZero (parseIntQ (exHelpers.renderUnitWithQuota 0))) :=
  C10_invalid_amount_sets_zero_quota exHelpers exEditEnv exAmountState (.str "abc")
    (by decide) (by decide)

/-- C10, counterexample: `parseFloat` maps the text `abc` to `NaN`, the stored
quota was 500000, and after the handler it is 0. -/
theorem C10_counterexample :
    exHelpers.parseFloat (.str "abc") = none ∧
      exAmountState.form.get "remain_quota" = .num 500000 ∧
      (onAmountChange exHelpers exEditEnv exAmountState (.str "abc")).form.get "remain_quota"
        = .num 0 := by
  refine ⟨rfl, rfl, ?_⟩
  simp [onAmountChange, exHelpers, exEditEnv, exAmountState, parseIntQ, jorZero, ofJ,
    getInitValues, Obj.set, Obj.get, Obj.find]

/-! ## Presets, validation, visibility and the two branches -/

/-- C11: with the form mounted, for every `(month, day, hour, minute)` and
every current time, `setExpiredTime` sets `expired_time` to the sentinel `-1`
when `month*30*86400 + day*86400 + hour*3600 + minute*60` is zero and otherwise
to `timestamp2string` of the current time in whole seconds plus that many
seconds; the preset `(0,0,0,0)` applied twice leaves `-1` both times. -/
theorem C11_setExpiredTime (H : Helpers) (env : Env) (nowMs nowMs2 : Int) (form : Obj)
    (month day hour minute : Int) (hm : env.formMounted = true) :
    (setExpiredTime H env nowMs form month day hour minute).get "expired_time"
        = (if month * 30 * 86400 + day * 86400 + hour * 3600 + minute * 60 = 0 then .num (-1)
          else H.timestamp2string (.num (nowMs / 1000
            + (month * 30 * 86400 + day * 86400 + hour * 3600 + minute * 60)))) ∧
      (setExpiredTime H env nowMs form 0 0 0 0).get "expired_time" = .num (-1) ∧
      (setExpiredTime H env nowMs2 (setExpiredTime H env nowMs form 0 0 0 0) 0 0 0 0).get
        "expired_time" = .num (-1) := by
  have hsec : month * 30 * 24 * 60 * 60 + day * 24 * 60 * 60 + hour * 60 * 60 + minute * 60
      = month * 30 * 86400 + day * 86400 + hour * 3600 + minute * 60 := by ring
  refine ⟨?_, ?_, ?_⟩
  · simp only [setExpiredTime, hm, hsec, Bool.not_true, Bool.false_eq_true, if_false]
    by_cases h0 : month * 30 * 86400 + day * 86400 + hour * 3600 + minute * 60 = 0
    · simp [h0]
    · simp [h0]
  · simp [setExpiredTime, hm]
  · simp [setExpiredTime, hm]

/-- C11, witness: the one-month preset and the never preset at the time
1700000000.5 s, over the sample draft. -/
theorem C11_setExpiredTime_witness :
    (setExpiredTime exHelpers exEditEnv 1700000000500 exDraft 1 0 0 0).get "expired_time"
        = (if (1 : Int) * 30 * 86400 + 0 * 86400 + 0 * 3600 + 0 * 60 = 0 then .num (-1)
          else exHelpers.timestamp2string (.num (1700000000500 / 1000
            + ((1 : Int) * 30 * 86400 + 0 * 86400 + 0 * 3600 + 0 * 60)))) ∧
      (setExpiredTime exHelpers exEditEnv 1700000000500 exDraft 0 0 0 0).get "expired_time"
        = .num (-1) ∧
      (setExpiredTime exHelpers exEditEnv 1700000060000
        (setExpiredTime exHelpers exEditEnv 1700000000500 exDraft 0 0 0 0) 0 0 0 0).get
        "expired_time" = .num (-1) :=
  C11_setExpiredTime exHelpers exEditEnv 1700000000500 1700000060000 exDraft 1 0 0 0
    (by decide)

/-- C12: for every `expired_time` value that is not the sentinel `-1` and not
empty: when it parses to a time `t` the validator accepts it exactly when `t`
is strictly greater than the current time, so `t` equal to now is rejected;
when it does not parse it is rejected. -/
theorem C12_expiredTimeValidator (H : Helpers) (nowMs : Int) (value : Val)
    (hs : value ≠ .num (-1)) (ht : truthy value = true) :
    (∀ t, H.dateParse (toStr value) = some t →
        (expiredTimeValidator H nowMs value = none ↔ nowMs < t)) ∧
      (H.dateParse (toStr value) = some nowMs → expiredTimeValidator H nowMs value ≠ none) ∧
      (H.dateParse (toStr value) = none → expiredTimeValidator H nowMs value ≠ none) := by
  refine ⟨?_, ?_, ?_⟩
  · intro t hp
    simp only [expiredTimeValidator, hs, ht, Bool.true_eq_false, or_self, if_false, hp]
    by_cases h : t ≤ nowMs
    · simp [h]
    · simp only [h, if_false, true_iff]
      omega
  · intro hp
    simp [expiredTimeValidator, hs, ht, hp]
  · intro hp
    simp [expiredTimeValidator, hs, ht, hp]

/-- C12, witness: the date of 2030 that the sample helpers parse, validated at
that very instant. -/
theorem C12_expiredTimeValidator_witness :
    (∀ t, exHelpers.dateParse (toStr (.str "2030-01-01 00:00:00")) = some t →
        (expiredTimeValidator exHelpers 1893456000000 (.str "2030-01-01 00:00:00") = none
          ↔ 1893456000000 < t)) ∧
      (exHelpers.dateParse (toStr (.str "2030-01-01 00:00:00")) = some 1893456000000 →
        expiredTimeValidator exHelpers 1893456000000 (.str "2030-01-01 00:00:00") ≠ none) ∧
      (exHelpers.dateParse (toStr (.str "2030-01-01 00:00:00")) = none →
        expiredTimeValidator exHelpers 1893456000000 (.str "2030-01-01 00:00:00") ≠ none) :=
  C12_expiredTimeValidator exHelpers 1893456000000 (.str "2030-01-01 00:00:00")
    (by decide) (by decide)

theorem expiredTimeValidator_samples :
    expiredTimeValidator exHelpers 1893456000000 (.str "2030-01-01 00:00:00")
        = some "过期时间不能早于当前时间！" ∧
      expiredTimeValidator exHelpers 1893455999999 (.str "2030-01-01 00:00:00") = none ∧
      expiredTimeValidator exHelpers 0 (.str "soon") = some "过期时间格式错误！" ∧
      expiredTimeValidator exHelpers 0 (.str "1969-12-31 23:59:59")
        = some "过期时间不能早于当前时间！" ∧
      expiredTimeValidator exHelpers 0 (.num (-1)) = none ∧
      expiredTimeValidator exHelpers 0 (.str "") = none := by
  decide

theorem numArg_unset (v : Val) (h : unsetOrZero v = true) : numArg v = .fin 0 := by
  cases v with
  | undefined => exact numArg_num 0 (by decide)
  | null => exact numArg_num 0 (by decide)
  | num n =>
    have hn : n = 0 := by simpa [unsetOrZero] using h
    subst hn
    exact numArg_num 0 (by decide)
  | _ => simp [unsetOrZero] at h

/-- C13: for every draft whose `first_used_time` and `daily_quota_limit` are
numbers or unset, the expiration fields are hidden exactly when
`start_on_first_use` is set and `first_used_time` is unset or 0, and the
duration fields are shown exactly when `start_on_first_use` is set or
`daily_quota_limit` is greater than 0. -/
theorem C13_visibility (values : Obj)
    (hf : numOrUnset (values.get "first_used_time") = true)
    (hq : numOrUnset (values.get "daily_quota_limit") = true) :
    (hideExpiration values = true ↔
        truthy (values.get "start_on_first_use") = true ∧
          unsetOrZero (values.get "first_used_time") = true) ∧
      (durationFieldsShown values = true ↔
        truthy (values.get "start_on_first_use") = true ∨
          positive (values.get "daily_quota_limit") = true) := by
  constructor
  · unfold hideExpiration
    cases hv : values.get "first_used_time" <;>
      simp_all [numOrUnset, unsetOrZero, truthy]
  · unfold durationFieldsShown
    cases hv : values.get "daily_quota_limit" with
    | num n => simp [positive, parseInt_num_pos]
    | undefined => simp [positive, numArg_unset, unsetOrZero, jpos]
    | null => simp [positive, numArg_unset, unsetOrZero, jpos]
    | _ => simp_all [numOrUnset]

/-- C13, witness: the sample draft of an unused first-use token. -/
theorem C13_visibility_witness :
    (hideExpiration exDeferredDraft = true ↔
        truthy (exDeferredDraft.get "start_on_first_use") = true ∧
          unsetOrZero (exDeferredDraft.get "first_used_time") = true) ∧
      (durationFieldsShown exDeferredDraft = true ↔
        truthy (exDeferredDraft.get "start_on_first_use") = true ∨
          positive (exDeferredDraft.get "daily_quota_limit") = true) :=
  C13_visibility exDeferredDraft (by decide) (by decide)

theorem visibility_samples :
    hideExpiration exDeferredDraft = true ∧ durationFieldsShown exDeferredDraft = true ∧
      hideExpiration exDraft = false ∧ durationFieldsShown exDraft = false ∧
      hideExpiration (exDeferredDraft.set "first_used_time" (.num 1700000000)) = false ∧
      durationFieldsShown (exDraft.set "daily_quota_limit" (.num 5)) = true := by
  decide

theorem set_eq_self (o : Obj) (k : String) (v : Val) (h : o.find k = some v) :
    o.set k v = o := by
  induction o with
  | nil => simp [Obj.find] at h
  | cons p o ih =>
    obtain ⟨a, b⟩ := p
    by_cases ha : a = k
    · subst ha
      simp only [Obj.find, if_true, Option.some.injEq] at h
      simp [Obj.set, h]
    · simp only [Obj.find, ha, if_false] at h
      simp [Obj.set, ha, ih h]

theorem deferCreate_eq_deferEdit (l : Obj)
    (h : notOrLe0 (numArg (l.get "first_used_time")) = true) : deferCreate l = deferEdit l := by
  simp [deferCreate, deferEdit, h]

theorem extendCreate_eq_extendEdit (l : Obj) (ext : JNum)
    (h : notOrLe0 (numArg (l.get "first_used_time")) = true) :
    extendCreate l ext = extendEdit l ext := by
  simp [extendCreate, extendEdit, h]

theorem createLocal_eq_editLocal (H : Helpers) (rand : Nat → ℚ) (values : Obj) (nm : String)
    (hname : values.get "name" = .str nm) (hnb : nm ≠ "") (htrim : jsTrim nm = nm)
    (hfu : unsetOrZero (values.get "first_used_time") = true) (pos : Nat) :
    createLocal H rand values 0 pos = Built.map (fun l => (l, pos)) (editLocal H values) := by
  have hcn : createName rand values 0 pos = some (nm, pos) := by
    simp [createName, hname, htrim, hnb]
  have hset : (values.del "tokenCount").set "name" (.str nm) = values.del "tokenCount" := by
    apply set_eq_self
    rw [Obj.find_del]
    simp [find_of_get_str hname]
  have hfus : notOrLe0 (numArg (values.get "first_used_time")) = true := by
    rw [numArg_unset _ hfu]
    rfl
  have gf := edit_prepared_get values "first_used_time" (by decide) (by decide) (by decide)
    (by decide) (by decide) (by decide) (by decide) (by decide)
  unfold createLocal editLocal
  simp only [hcn, hset]
  rw [deferCreate_eq_deferEdit _ (by rw [gf]; exact hfus)]
  cases hp : parseExpiry H (deferEdit (normalize (values.del "tokenCount")).1) with
  | none => rfl
  | some l1 =>
    have g1 : l1.get "first_used_time" = values.get "first_used_time" := by
      rw [get_of_find_eq (parseExpiry_find hp _ (by decide)),
        get_of_find_eq (deferEdit_find _ _ (by decide)), gf]
    simp only
    rw [extendCreate_eq_extendEdit _ _ (by rw [g1]; exact hfus)]
    cases joinLimits (extendEdit l1 (normalize (values.del "tokenCount")).2) <;> rfl

theorem requests_submit_edit_all (H : Helpers) (env : Env) (resp : Nat → Resp)
    (rand : Nat → ℚ) (values : Obj) (he : env.isEdit = true) :
    requests (submit H env resp rand values)
      = (match editLocal H values with
        | .ok l => [editBody env l]
        | _ => []) := by
  cases hl : editLocal H values with
  | ok l => exact requests_submit_edit H env resp rand values l he hl
  | parseFail => simp [submit, he, submitEdit, hl, requests]
  | typeError => simp [submit, he, submitEdit, hl, requests]

theorem requests_createLoop_one (H : Helpers) (resp : Nat → Resp) (rand : Nat → ℚ)
    (values : Obj) :
    requests (createLoop H resp rand values 1 0 0 0).events
      = (match createLocal H rand values 0 0 with
        | .ok lp => [lp.1]
        | _ => []) := by
  unfold createLoop
  cases hl : createLocal H rand values 0 0 with
  | ok lp =>
    obtain ⟨l, p⟩ := lp
    simp only
    split_ifs <;> simp [requests, createLoop]
  | parseFail => simp [requests]
  | typeError => simp [requests]

/-- C14 (amended): for every draft whose name is not blank and has no white
space at either end, with `tokenCount = 1` and `first_used_time` unset or 0,
the create branch of `submit` builds the payload the edit branch builds (and
stops where it stops), and the body of the `PUT` request is the body of the
`POST` request with the field `id` written into it. -/
theorem C14_create_matches_edit (H : Helpers) (envE envC : Env) (respE respC : Nat → Resp)
    (rand : Nat → ℚ) (values : Obj) (nm : String)
    (he : envE.isEdit = true) (hc : envC.isEdit = false)
    (hname : values.get "name" = .str nm) (hnb : nm ≠ "") (htrim : jsTrim nm = nm)
    (htc : values.get "tokenCount" = .num 1)
    (hfu : unsetOrZero (values.get "first_used_time") = true) :
    createLocal H rand values 0 0 = Built.map (fun l => (l, 0)) (editLocal H values) ∧
      requests (submit H envE respE rand values)
        = (requests (submit H envC respC rand values)).map
            (fun b => b.set "id" (ofJ (parseInt envE.editingId))) := by
  have hb := createLocal_eq_editLocal H rand values nm hname hnb htrim hfu 0
  refine ⟨hb, ?_⟩
  have hcount : (tokenCount values).toNat = 1 := by
    rw [tokenCount_num values 1 (by rw [htc]; exact parseInt10_num 1 (by decide)) (by decide)]
  rw [requests_submit_edit_all H envE respE rand values he,
    requests_submit_create H envC respC rand values hc]
  unfold submitCreateLoop
  rw [hcount, requests_createLoop_one, hb]
  cases editLocal H values <;> simp [Built.map, editBody]

/-- C14, witness: the sample draft, whose name `tok` is trimmed. -/
theorem C14_create_matches_edit_witness :
    createLocal exHelpers exRand exDraft 0 0
        = Built.map (fun l => (l, 0)) (editLocal exHelpers exDraft) ∧
      requests (submit exHelpers exEditEnv exOk exRand exDraft)
        = (requests (submit exHelpers exCreateEnv exOk exRand exDraft)).map
            (fun b => b.set "id" (ofJ (parseInt exEditEnv.editingId))) :=
  C14_create_matches_edit exHelpers exEditEnv exCreateEnv exOk exOk exRand exDraft "tok"
    (by decide) (by decide) (by decide) (by decide) (by decide) (by decide) (by decide)

/-- C14, counterexample: the sample draft named ` tok ` is not blank, has
`tokenCount = 1` and `first_used_time = 0`; the create branch sends the name
`tok` and the edit branch sends ` tok `. -/
theorem C14_counterexample :
    exPaddedDraft.get "name" = .str " tok " ∧ jsTrim " tok " ≠ "" ∧
      exPaddedDraft.get "tokenCount" = .num 1 ∧
      exPaddedDraft.get "first_used_time" = .num 0 ∧
      (requests (submit exHelpers exCreateEnv exOk exRand exPaddedDraft)).map
        (fun b => b.get "name") = [.str "tok"] ∧
      (requests (submit exHelpers exEditEnv exOk exRand exPaddedDraft)).map
        (fun b => b.get "name") = [.str " tok "] := by
  decide

end EditTokenModal
